import Mathlib

/-!
# Requirement resolution (`src/requirements.cpp`)

A shallow embedding of the availability resolver, the cross-requirement
reconciler, the skill gate, the success-rate calculator, `remove_item`, the
missing report, the loaders and the display tier of `requirements.cpp`,
followed by theorems about them.

Conventions of the embedding:

* `std::vector` is `List`; `std::map` is an association list in iteration order.
* C++ `int` is `Int`. Signed overflow is undefined behaviour in C++, so the
  embedding describes the executions in which no product or sum overflows.
* `float`/`double` values are real numbers and `pow` is `Real.rpow`.
* The `mutable available` member is written by `const` member functions. Every
  function that writes it returns the updated object next to its C++ result.
* The inventory, the player and the item catalogue are collaborators that are
  only queried; they are records of the queries the code makes.
-/

namespace Requirements

/-! ## Data model -/

/-- The tri-state annotation `enum available_status` of `requirements.h`. -/
inductive available_status where
  | a_true
  | a_false
  | a_insufficent
  deriving DecidableEq, Repr

open available_status

/-- The queries that `requirements.cpp` makes on a `const inventory &`. -/
structure inventory where
  has_tools : String → Int → Bool
  has_charges : String → Int → Bool
  has_components : String → Int → Bool
  has_items_with_quality : String → Int → Int → Bool

/-- The members of `player` that `requirements.cpp` reads. The return type of
`get_adjusted_skill_level` is declared outside the file; it is converted to
`double` at its only use, so it is a real number here. -/
structure player where
  has_bionic : String → Bool
  is_wearing : String → Bool
  has_trait : String → Bool
  hunger : Int
  int_cur : Int
  get_skill_level : String → Int
  get_adjusted_skill_level : String → ℝ

/-- The global state that the code reads besides its arguments.

* `u` is the player `g->u`.
* `item_qualities t` is `item::find_type( t )->qualities`, in iteration order.
* `ctor_by_charges b` is the `by_charges` member of an object built by the
  three-argument constructor `item_requirement( TYPE, COUNT, b )`. The
  declaration of `item_requirement` is not part of `requirements.cpp`, so the
  meaning of the third argument is left open. -/
structure game where
  u : player
  item_qualities : String → List (String × Int)
  ctor_by_charges : Bool → Bool

/-- The members of `struct item_requirement` used by `requirements.cpp`. -/
structure item_requirement where
  type : String
  count : Int
  by_charges : Bool
  recoverable : Bool
  available : available_status
  deriving DecidableEq, Repr

/-- The members of `struct quality_requirement`. -/
structure quality_requirement where
  type : String
  level : Int
  available : available_status
  deriving DecidableEq, Repr

/-- The members of `struct skill_requirement`; `skill` is the skill's identifier. -/
structure skill_requirement where
  skill : String
  minimum : Int
  difficulty : Int
  base_success : ℝ
  stat_factor : ℝ

/-- The members of `struct requirement_data`. `skills` is the `std::map` in
iteration order. -/
structure requirement_data where
  tools : List (List item_requirement)
  qualities : List (List quality_requirement)
  components : List (List item_requirement)
  skills : List (String × skill_requirement)

/-! ## Single alternatives -/

/-- The three-argument constructor `item_requirement( TYPE, COUNT, flag )`. Only
`type`, `count` and `by_charges` of the temporaries built with it are read. -/
def item_requirement.mk3 (g : game) (TYPE : String) (COUNT : Int) (flag : Bool) :
    item_requirement :=
  { type := TYPE, count := COUNT, by_charges := g.ctor_by_charges flag,
    recoverable := true, available := a_false }

/-- The function `item_requirement::has`. -/
def item_requirement.has (r : item_requirement) (g : game) (crafting_inv : inventory)
    (batch : Int) : Bool :=
  if r.count = 0 then
    if r.type = "goggles_welding" ∧
        (g.u.has_bionic "bio_sunglasses" || g.u.is_wearing "rm13_armor_on") = true then
      true
    else
      crafting_inv.has_tools r.type 1
  else if r.by_charges then
    crafting_inv.has_charges r.type (r.count * batch)
  else
    if (r.type = "rope_30" ∨ r.type = "rope_6") ∧
        (g.u.has_trait "WEB_ROPE" && decide (g.u.hunger ≤ 300)) = true then
      true
    else
      crafting_inv.has_components r.type (r.count * batch)

/-- The function `quality_requirement::has`; the batch argument is a dummy. -/
def quality_requirement.has (r : quality_requirement) (crafting_inv : inventory)
    (_batch : Int) : Bool :=
  crafting_inv.has_items_with_quality r.type r.level 1

/-- What the templates of `requirement_data` use of their type argument `T`. -/
class requirement (T : Type) where
  type : T → String
  available : T → available_status
  set_available : T → available_status → T
  has : T → game → inventory → Int → Bool

instance : requirement item_requirement where
  type r := r.type
  available r := r.available
  set_available r a := { r with available := a }
  has r g inv batch := r.has g inv batch

instance : requirement quality_requirement where
  type r := r.type
  available r := r.available
  set_available r a := { r with available := a }
  has r _ inv batch := r.has inv batch

/-! ## Availability resolver -/

/-- The inner loop of `has_comps` over one set of alternatives, started with the
current value of `has_tool_in_set`. -/
def has_comps_set {T : Type} [requirement T] (g : game) (crafting_inv : inventory)
    (batch : Int) : List T → Bool → Bool × List T
  | [], has_tool_in_set => (has_tool_in_set, [])
  | tool :: rest, has_tool_in_set =>
    let tool1 :=
      if requirement.has tool g crafting_inv batch then
        requirement.set_available tool a_true
      else
        requirement.set_available tool a_false
    let r := has_comps_set g crafting_inv batch rest
      (has_tool_in_set || decide (requirement.available tool1 = a_true))
    (r.1, tool1 :: r.2)

/-- The outer loop of `has_comps`, started with the current value of `retval`. -/
def has_comps_loop {T : Type} [requirement T] (g : game) (crafting_inv : inventory)
    (batch : Int) : List (List T) → Bool → Bool × List (List T)
  | [], retval => (retval, [])
  | set_of_tools :: rest, retval =>
    let s := has_comps_set g crafting_inv batch set_of_tools false
    let r := has_comps_loop g crafting_inv batch rest (if !s.1 then false else retval)
    (r.1, s.2 :: r.2)

/-- The template `requirement_data::has_comps`. -/
def has_comps {T : Type} [requirement T] (g : game) (crafting_inv : inventory)
    (vec : List (List T)) (batch : Int) : Bool × List (List T) :=
  has_comps_loop g crafting_inv batch vec true

/-! ## Cross-requirement reconciler -/

/-- The template `requirement_data::find_by_type`; `none` is `nullptr`. -/
def find_by_type {T : Type} [requirement T] : List (List T) → String → Option T
  | [], _ => none
  | list :: rest, type =>
    match list.find? (fun comp => decide (requirement.type comp = type)) with
    | some comp => some comp
    | none => find_by_type rest type

/-- The tool part of `check_enough_materials( comp, ... )` (lines 732 to 757). -/
def check_tool_overlap (tools : List (List item_requirement)) (g : game)
    (comp : item_requirement) (crafting_inv : inventory) (batch : Int) : item_requirement :=
  let count := comp.count * batch
  match find_by_type tools comp.type with
  | none => comp
  | some tq =>
    if tq.available = a_true then
      let tc := if tq.by_charges then 1 else tq.count
      let i_tmp := item_requirement.mk3 g comp.type (count + tc) false
      let t_tmp := item_requirement.mk3 g comp.type (count + tc) true
      if (!i_tmp.has g crafting_inv 1 && !t_tmp.has g crafting_inv 1) = true then
        { comp with available := a_insufficent }
      else
        comp
    else
      comp

/-- The loop over `it->qualities` of `check_enough_materials( comp, ... )`
(lines 759 to 769). -/
def check_quality_overlap (qualities : List (List quality_requirement))
    (crafting_inv : inventory) : List (String × Int) → item_requirement → item_requirement
  | [], comp => comp
  | ql :: rest, comp =>
    match find_by_type qualities ql.1 with
    | none => check_quality_overlap qualities crafting_inv rest comp
    | some qr =>
      if qr.level > ql.2 then
        check_quality_overlap qualities crafting_inv rest comp
      else if (!crafting_inv.has_items_with_quality qr.type qr.level (1 + comp.count)) = true then
        check_quality_overlap qualities crafting_inv rest { comp with available := a_insufficent }
      else
        check_quality_overlap qualities crafting_inv rest comp

/-- The private overload `check_enough_materials( comp, crafting_inv, batch )`. -/
def check_enough_materials_comp (R : requirement_data) (g : game) (comp : item_requirement)
    (crafting_inv : inventory) (batch : Int) : Bool × item_requirement :=
  if comp.available ≠ a_true then
    (false, comp)
  else
    let comp1 := check_tool_overlap R.tools g comp crafting_inv batch
    let comp2 := check_quality_overlap R.qualities crafting_inv (g.item_qualities comp.type) comp1
    (decide (comp2.available = a_true), comp2)

/-- The inner loop of `check_enough_materials( crafting_inv, batch )`, started
with the current value of `atleast_one_available`. -/
def check_enough_materials_choices (R : requirement_data) (g : game)
    (crafting_inv : inventory) (batch : Int) :
    List item_requirement → Bool → Bool × List item_requirement
  | [], atleast_one_available => (atleast_one_available, [])
  | comp :: rest, atleast_one_available =>
    let c := check_enough_materials_comp R g comp crafting_inv batch
    let r := check_enough_materials_choices R g crafting_inv batch rest
      (if c.1 then true else atleast_one_available)
    (r.1, c.2 :: r.2)

/-- The outer loop of `check_enough_materials( crafting_inv, batch )`, started
with the current value of `retval`. -/
def check_enough_materials_loop (R : requirement_data) (g : game)
    (crafting_inv : inventory) (batch : Int) :
    List (List item_requirement) → Bool → Bool × List (List item_requirement)
  | [], retval => (retval, [])
  | component_choices :: rest, retval =>
    let s := check_enough_materials_choices R g crafting_inv batch component_choices false
    let r := check_enough_materials_loop R g crafting_inv batch rest
      (if !s.1 then false else retval)
    (r.1, s.2 :: r.2)

/-- The function `requirement_data::check_enough_materials( crafting_inv, batch )`.
The lookups read `tools` and `qualities`, which the loop does not write. -/
def check_enough_materials (R : requirement_data) (g : game) (crafting_inv : inventory)
    (batch : Int) : Bool × requirement_data :=
  let r := check_enough_materials_loop R g crafting_inv batch R.components true
  (r.1, { R with components := r.2 })

/-- The function `requirement_data::can_make_with_inventory`. -/
def can_make_with_inventory (R : requirement_data) (g : game) (crafting_inv : inventory)
    (batch : Int) : Bool × requirement_data :=
  let retval := true
  let q := has_comps g crafting_inv R.qualities 1
  let R1 := { R with qualities := q.2 }
  let retval := if !q.1 then false else retval
  let t := has_comps g crafting_inv R1.tools batch
  let R2 := { R1 with tools := t.2 }
  let retval := if !t.1 then false else retval
  let c := has_comps g crafting_inv R2.components batch
  let R3 := { R2 with components := c.2 }
  let retval := if !c.1 then false else retval
  let m := check_enough_materials R3 g crafting_inv batch
  let retval := if !m.1 then false else retval
  (retval, m.2)

/-! ## Skill gate and success rate -/

/-- The function `skill_requirement::meets_minimum`. -/
def skill_requirement.meets_minimum (r : skill_requirement) (_player : player) : Bool :=
  decide (_player.get_skill_level r.skill ≥ r.minimum)

/-- The loop of `requirement_data::meets_skill_requirements`. -/
def meets_skill_requirements_loop (_player : player) : List (String × skill_requirement) → Bool
  | [] => true
  | requirement :: rest =>
    if !requirement.2.meets_minimum _player then false
    else meets_skill_requirements_loop _player rest

/-- The function `requirement_data::meets_skill_requirements`. -/
def meets_skill_requirements (R : requirement_data) (_player : player) : Bool :=
  meets_skill_requirements_loop _player R.skills

/-- The function `skill_requirement::success_rate`. -/
noncomputable def skill_requirement.success_rate (r : skill_requirement) (_player : player)
    (difficulty_modifier : ℝ) : ℝ :=
  if r.difficulty = 0 then 1
  else
    let relative_difficulty : ℝ := _player.get_adjusted_skill_level r.skill - (r.difficulty : ℝ)
    let stat : Int := _player.int_cur
    let stat_bonus : ℝ := ((stat - 8 : Int) : ℝ) * r.stat_factor
    let base_rate : ℝ := r.base_success
    let exponent : ℝ := Real.rpow 2 (relative_difficulty - difficulty_modifier + stat_bonus)
    1 - Real.rpow (1 - base_rate) exponent

/-- The loop of `requirement_data::success_rate`, started with the current value
of `compound_rate`; `n` is `skills.size()`. -/
noncomputable def success_rate_loop (n : Nat) (_player : player) (difficulty_modifier : ℝ) :
    List (String × skill_requirement) → ℝ → ℝ
  | [], compound_rate => compound_rate
  | requirement :: rest, compound_rate =>
    let skill_success_rate := requirement.2.success_rate _player difficulty_modifier
    let adjusted_rate := Real.rpow skill_success_rate (1 / (n : ℝ))
    success_rate_loop n _player difficulty_modifier rest (compound_rate * adjusted_rate)

/-- The function `requirement_data::success_rate`. -/
noncomputable def success_rate (R : requirement_data) (_player : player)
    (difficulty_modifier : ℝ) : ℝ :=
  success_rate_loop R.skills.length _player difficulty_modifier R.skills 1

/-! ## Removing an item type -/

/-- The inner loop of the template `remove_item( type, vec )` over one `elem`.
`kept` is the part of `elem` before the iterator `c`, the second list is the
part from `c` on. The result is `true` when the function returns `true` from
inside the loop, together with `elem` as it is then. -/
def remove_item_elem {T : Type} [requirement T] (type : String) : List T → List T → Bool × List T
  | kept, [] => (false, kept)
  | kept, c :: rest =>
    if requirement.type c = type then
      if kept.length + (c :: rest).length = 1 then
        (true, kept ++ c :: rest)
      else
        remove_item_elem type kept rest
    else
      remove_item_elem type (kept ++ [c]) rest

/-- The template `requirement_data::remove_item( type, vec )`: the returned
value and `vec` as it is on return. -/
def remove_item_vec {T : Type} [requirement T] (type : String) :
    List (List T) → Bool × List (List T)
  | [] => (false, [])
  | elem :: rest =>
    let e := remove_item_elem type [] elem
    if e.1 then
      (true, e.2 :: rest)
    else
      let r := remove_item_vec type rest
      (r.1, e.2 :: r.2)

/-- The function `requirement_data::remove_item( type )`. The right operand of
`||` is evaluated only when the left one is `false`. -/
def remove_item (R : requirement_data) (type : String) : Bool × requirement_data :=
  let t := remove_item_vec type R.tools
  let R1 := { R with tools := t.2 }
  if t.1 then
    (true, R1)
  else
    let c := remove_item_vec type R1.components
    (c.1, { R1 with components := c.2 })

/-! ## Missing report -/

/-- The members of `struct quality`. -/
structure quality where
  id : String
  name : String
  deriving DecidableEq, Repr

/-- An argument passed to the variadic `string_format` after the format. -/
inductive format_arg where
  | str (s : String)
  | int (n : Int)
  deriving DecidableEq, Repr

/-- What the text-producing functions read besides their arguments.

* `gettext msg` is `_( msg )`, `ngettext` is the plural form lookup and
  `string_format` the `printf`-like formatter; the three are defined outside
  `requirements.cpp`.
* `nname t n` is `item::nname( t, n )`, whose second argument defaults to 1.
* `qualities` is the static map `quality::qualities` in iteration order. -/
structure display where
  gettext : String → String
  ngettext : String → String → Int → String
  string_format : String → List format_arg → String
  nname : String → Int → String
  qualities : List (String × quality)

/-- Modelled from the spec: the JSON reader of `json.h` is not part of the
sources. A declaration in the declarative input format is a JSON value. -/
inductive json_value where
  | null
  | bool (b : Bool)
  | number (x : ℚ)
  | string (s : String)
  | array (elems : List json_value)
  | object (members : List (String × json_value))

/-- Modelled from the spec: a `JsonObject` of `json.h`, as its members. -/
abbrev JsonObject := List (String × json_value)

/-- Modelled from the spec: a `JsonArray` of `json.h`, as the elements that
have not been read yet; `has_more()` is `≠ []`, `test_array()` and
`test_string()` look at the head, the `next_*` calls take it. -/
abbrev JsonArray := List json_value

/-- Modelled from the spec: `JsonObject::has_member( name )`. -/
def JsonObject.has_member (jo : JsonObject) (name : String) : Bool :=
  (jo.lookup name).isSome

/-- Modelled from the spec: `JsonObject::has_object( name )`. -/
def JsonObject.has_object (jo : JsonObject) (name : String) : Bool :=
  match jo.lookup name with
  | some (json_value.object _) => true
  | _ => false

/-- Modelled from the spec: `JsonObject::has_array( name )`. -/
def JsonObject.has_array (jo : JsonObject) (name : String) : Bool :=
  match jo.lookup name with
  | some (json_value.array _) => true
  | _ => false

/-- Modelled from the spec: `JsonObject::has_int( name )`. -/
def JsonObject.has_int (jo : JsonObject) (name : String) : Bool :=
  match jo.lookup name with
  | some (json_value.number _) => true
  | _ => false

/-- Modelled from the spec: `JsonObject::has_bool( name )`. -/
def JsonObject.has_bool (jo : JsonObject) (name : String) : Bool :=
  match jo.lookup name with
  | some (json_value.bool _) => true
  | _ => false

/-- Modelled from the spec: `JsonObject::get_string( name )`; `none` stands for
the exception thrown when the member is missing or not a string. -/
def JsonObject.get_string (jo : JsonObject) (name : String) : Option String :=
  match jo.lookup name with
  | some (json_value.string s) => some s
  | _ => none

/-- Modelled from the spec: `JsonObject::get_string( name, fallback )`. -/
def JsonObject.get_string_or (jo : JsonObject) (name fallback : String) : Option String :=
  match jo.lookup name with
  | none => some fallback
  | some (json_value.string s) => some s
  | some _ => none

/-- Modelled from the spec: `JsonObject::get_int( name )`; the number is
truncated towards zero. -/
def JsonObject.get_int (jo : JsonObject) (name : String) : Option Int :=
  match jo.lookup name with
  | some (json_value.number x) => some (Int.tdiv x.num x.den)
  | _ => none

/-- Modelled from the spec: `JsonObject::get_int( name, fallback )`. -/
def JsonObject.get_int_or (jo : JsonObject) (name : String) (fallback : Int) : Option Int :=
  match jo.lookup name with
  | none => some fallback
  | some (json_value.number x) => some (Int.tdiv x.num x.den)
  | some _ => none

/-- Modelled from the spec: `JsonObject::get_float( name )`. -/
def JsonObject.get_float (jo : JsonObject) (name : String) : Option ℝ :=
  match jo.lookup name with
  | some (json_value.number x) => some (x : ℝ)
  | _ => none

/-- Modelled from the spec: `JsonObject::get_bool( name )`. -/
def JsonObject.get_bool (jo : JsonObject) (name : String) : Option Bool :=
  match jo.lookup name with
  | some (json_value.bool b) => some b
  | _ => none

/-- Modelled from the spec: `JsonObject::get_array( name )`; a missing member
gives the empty array. -/
def JsonObject.get_array (jo : JsonObject) (name : String) : Option JsonArray :=
  match jo.lookup name with
  | none => some []
  | some (json_value.array elems) => some elems
  | some _ => none

/-- Modelled from the spec: `JsonObject::get_object( name )`; a missing member
gives the empty object. -/
def JsonObject.get_object (jo : JsonObject) (name : String) : Option JsonObject :=
  match jo.lookup name with
  | none => some []
  | some (json_value.object members) => some members
  | some _ => none

/-- Modelled from the spec: `JsonArray::get_string( i )`. -/
def JsonArray.get_string (ja : JsonArray) (i : Nat) : Option String :=
  match ja[i]? with
  | some (json_value.string s) => some s
  | _ => none

/-- Modelled from the spec: `JsonArray::get_int( i )`. -/
def JsonArray.get_int (ja : JsonArray) (i : Nat) : Option Int :=
  match ja[i]? with
  | some (json_value.number x) => some (Int.tdiv x.num x.den)
  | _ => none

/-- Modelled from the spec: `JsonArray::has_array( i )`. -/
def JsonArray.has_array (ja : JsonArray) (i : Nat) : Bool :=
  match ja[i]? with
  | some (json_value.array _) => true
  | _ => false

/-- The default constructor `quality_requirement()` of `requirements.h`. -/
def quality_requirement.default : quality_requirement :=
  { type := "UNKNOWN", level := 0, available := a_false }

/-- The default constructor `skill_requirement()` of `requirements.h`; the
null skill has the empty identifier. -/
noncomputable def skill_requirement.default : skill_requirement :=
  { skill := "", minimum := 0, difficulty := 0, base_success := 1 / 2, stat_factor := 1 / 8 }

/-- The default constructor `requirement_data()`. -/
def requirement_data.default : requirement_data :=
  { tools := [], qualities := [], components := [], skills := [] }

/-- The function `item_requirement::load` on the object `obj`. -/
def item_requirement.load (obj : item_requirement) (jsobj : JsonObject) :
    Option item_requirement := do
  let type ← jsobj.get_string "item"
  let obj1 := { obj with type := type }
  let obj2 ←
    if jsobj.has_int "charges" then do
      let count ← jsobj.get_int "charges"
      pure { obj1 with count := count, by_charges := true }
    else if jsobj.has_int "count" then do
      let count ← jsobj.get_int "count"
      pure { obj1 with count := count, by_charges := false }
    else
      pure { obj1 with count := 0, by_charges := false }
  let recoverable ←
    if jsobj.has_bool "recoverable" then jsobj.get_bool "recoverable" else pure true
  pure { obj2 with recoverable := recoverable }

/-- The function `item_requirement::from_json`; `item0` is the value of the
default constructor `item_requirement()`, whose declaration is not part of the
sources. -/
def item_requirement.from_json (item0 : item_requirement) (jsobj : JsonObject) :
    Option item_requirement :=
  item_requirement.load item0 jsobj

/-- The function `quality_requirement::load` on the object `obj`. -/
def quality_requirement.load (obj : quality_requirement) (jsobj : JsonObject) :
    Option quality_requirement := do
  let type ← jsobj.get_string "quality"
  let level ← jsobj.get_int "level"
  pure { obj with type := type, level := level }

/-- The function `quality_requirement::from_json`. -/
def quality_requirement.from_json (jsobj : JsonObject) : Option quality_requirement :=
  quality_requirement.load quality_requirement.default jsobj

/-- The function `skill_requirement::load` on the object `obj`. The skill
found by `Skill::skill( skill_name )` is held by its identifier. -/
noncomputable def skill_requirement.load (obj : skill_requirement) (json_obj : JsonObject) :
    Option skill_requirement := do
  let skill_name ← json_obj.get_string "skill"
  let difficulty ← json_obj.get_int "difficulty"
  let minimum ← if json_obj.has_member "min" then json_obj.get_int "min" else pure difficulty
  let base_success ←
    if json_obj.has_member "base_success" then json_obj.get_float "base_success"
    else pure obj.base_success
  let stat_factor ←
    if json_obj.has_member "stat_factor" then json_obj.get_float "stat_factor"
    else pure obj.stat_factor
  pure { skill := skill_name, minimum := minimum, difficulty := difficulty,
         base_success := base_success, stat_factor := stat_factor }

/-- The function `skill_requirement::from_json`. -/
noncomputable def skill_requirement.from_json (jsobj : JsonObject) : Option skill_requirement :=
  skill_requirement.load skill_requirement.default jsobj

/-- The assignment `skills[key] = req` on the `std::map`, which is kept in the
order of its keys. -/
def skills_assign (key : String) (req : skill_requirement) :
    List (String × skill_requirement) → List (String × skill_requirement)
  | [] => [(key, req)]
  | (k, v) :: rest =>
    if key.data < k.data then (key, req) :: (k, v) :: rest
    else if key = k then (key, req) :: rest
    else (k, v) :: skills_assign key req rest

/-- The inner loop of `load_requirement_alternative_list` over `subarray`,
which appends to `into.back()`, here `back`. -/
def load_alternatives {T : Type} (from_json : JsonObject → Option T) :
    JsonArray → List T → Option (List T)
  | [], back => some back
  | json_value.object req_obj :: rest, back => do
    let req ← from_json req_obj
    load_alternatives from_json rest (back ++ [req])
  | _ :: _, _ => none

/-- The outer loop of `load_requirement_alternative_list` over `jsarr`. -/
def load_requirement_alternative_loop {T : Type} (from_json : JsonObject → Option T) :
    JsonArray → List (List T) → Option (List (List T))
  | [], into => some into
  | json_value.array subarray :: rest, into => do
    let back ← load_alternatives from_json subarray []
    load_requirement_alternative_loop from_json rest (into ++ [back])
  | json_value.object req_obj :: rest, into => do
    let req ← from_json req_obj
    load_requirement_alternative_loop from_json rest (into ++ [[] ++ [req]])
  | _ :: _, _ => none

/-- The template `load_requirement_alternative_list`; `from_json` is
`T::from_json`. -/
def load_requirement_alternative_list {T : Type} (from_json : JsonObject → Option T)
    (jsobj : JsonObject) (from_field : String) (into : List (List T)) :
    Option (List (List T)) :=
  if !jsobj.has_array from_field then some into
  else do
    let jsarr ← jsobj.get_array from_field
    load_requirement_alternative_loop from_json jsarr into

/-- The specialisation `legacy_req_load< item_requirement >`, which reads one
element of `jsarr`; `item0` is the value of `item_requirement()`. -/
def legacy_req_load_item (item0 : item_requirement) (is_tool : Bool) :
    json_value → Option item_requirement
  | json_value.string s =>
    if is_tool then some { item0 with type := s, count := 0 } else none
  | json_value.array comp =>
    if is_tool then do
      let type ← JsonArray.get_string comp 0
      let count ← JsonArray.get_int comp 1
      if count < 0 then
        pure { item0 with type := type, count := count * -1, by_charges := false }
      else
        pure { item0 with type := type, count := count, by_charges := true }
    else do
      let type ← JsonArray.get_string comp 0
      let count ← JsonArray.get_int comp 1
      if comp.length > 2 then do
        let s ← JsonArray.get_string comp 2
        pure { item0 with type := type, count := count,
                          recoverable := if s = "NO_RECOVER" then false else true }
      else
        pure { item0 with type := type, count := count }
  | _ => none

/-- The specialisation `legacy_req_load< quality_requirement >`, which reads
one element of `jsarr`. -/
def legacy_req_load_quality (_is_tool : Bool) : json_value → Option quality_requirement
  | json_value.object quality_data => do
    let type ← JsonObject.get_string quality_data "id"
    let level ← JsonObject.get_int_or quality_data "level" 1
    pure { quality_requirement.default with type := type, level := level }
  | _ => none

/-- The inner loop of `load_obj_list` over `ja`, which appends to `choices`. -/
def load_choices {T : Type} (legacy_req_load : json_value → Option T) :
    JsonArray → List T → Option (List T)
  | [], choices => some choices
  | elem :: rest, choices => do
    let req ← legacy_req_load elem
    load_choices legacy_req_load rest (choices ++ [req])

/-- The template `requirement_data::load_obj_list`; `legacy_req_load` is
`legacy_req_load< T >( _, is_tool )`. -/
def load_obj_list {T : Type} (legacy_req_load : json_value → Option T) :
    JsonArray → List (List T) → Option (List (List T))
  | [], objs => some objs
  | json_value.array ja :: rest, objs => do
    let choices ← load_choices legacy_req_load ja []
    if !choices.isEmpty then
      load_obj_list legacy_req_load rest (objs ++ [choices])
    else
      load_obj_list legacy_req_load rest objs
  | elem :: rest, objs => do
    let req ← legacy_req_load elem
    load_obj_list legacy_req_load rest (objs ++ [[req]])

/-- One statement of the legacy branch of `requirement_data::load`:
`if( jsobj.has_array( field ) ) { jsarr = jsobj.get_array( field );
load_obj_list( jsarr, objs, is_tool ); }`. -/
def load_legacy_field {T : Type} (legacy_req_load : json_value → Option T)
    (jsobj : JsonObject) (field : String) (objs : List (List T)) : Option (List (List T)) :=
  if jsobj.has_array field then do
    let jsarr ← jsobj.get_array field
    load_obj_list legacy_req_load jsarr objs
  else
    pure objs

/-- The loop of `load_skill_requirements` over an array of arrays. -/
noncomputable def load_skills_required :
    JsonArray → List (String × skill_requirement) → Option (List (String × skill_requirement))
  | [], skills => some skills
  | json_value.array ja :: rest, skills => do
    let name ← JsonArray.get_string ja 0
    let level ← JsonArray.get_int ja 1
    load_skills_required rest
      (skills_assign name
        { skill_requirement.default with skill := name, difficulty := level, minimum := level }
        skills)
  | _ :: _, _ => none

/-- The function `requirement_data::load_skill_requirements`, on the skills
map. -/
noncomputable def load_skill_requirements (skills : List (String × skill_requirement))
    (js_obj : JsonObject) : Option (List (String × skill_requirement)) := do
  let skill_name ← js_obj.get_string_or "skill_used" ""
  let skills1 ←
    if skill_name.length ≠ 0 then do
      let difficulty ← js_obj.get_int "difficulty"
      pure (skills_assign skill_name
        { skill_requirement.default with
          skill := skill_name, difficulty := difficulty, minimum := difficulty } skills)
    else
      pure skills
  let skills_array ← js_obj.get_array "skills_required"
  if !skills_array.isEmpty then
    if JsonArray.has_array skills_array 0 then
      load_skills_required skills_array skills1
    else do
      let name ← JsonArray.get_string skills_array 0
      let level ← JsonArray.get_int skills_array 1
      pure (skills_assign name
        { skill_requirement.default with
          skill := name, difficulty := level, minimum := level, base_success := 11 / 20 }
        skills1)
  else
    pure skills1

/-- The loop over the array `skills` of the current format in
`requirement_data::load`. -/
noncomputable def load_skills :
    JsonArray → List (String × skill_requirement) → Option (List (String × skill_requirement))
  | [], skills => some skills
  | json_value.object skill_req_obj :: rest, skills => do
    let req ← skill_requirement.from_json skill_req_obj
    load_skills rest (skills_assign req.skill req skills)
  | _ :: _, _ => none

/-- The function `requirement_data::load`, which appends to the members of
`R`; `item0` is the value of `item_requirement()`. -/
noncomputable def requirement_data.load (item0 : item_requirement) (R : requirement_data)
    (jsobj : JsonObject) : Option requirement_data :=
  if jsobj.has_object "requirements" then do
    let req_subobj ← jsobj.get_object "requirements"
    let components ← load_requirement_alternative_list (item_requirement.from_json item0)
      req_subobj "components" R.components
    let qualities ← load_requirement_alternative_list quality_requirement.from_json
      req_subobj "qualities" R.qualities
    let tools ← load_requirement_alternative_list (item_requirement.from_json item0)
      req_subobj "tools" R.tools
    let skills ←
      if req_subobj.has_array "skills" then do
        let jsarr ← req_subobj.get_array "skills"
        load_skills jsarr R.skills
      else
        pure R.skills
    pure { tools := tools, qualities := qualities, components := components, skills := skills }
  else do
    let components ← load_legacy_field (legacy_req_load_item item0 false) jsobj "components"
      R.components
    let qualities ← load_legacy_field (legacy_req_load_quality false) jsobj "qualities"
      R.qualities
    let tools ← load_legacy_field (legacy_req_load_item item0 true) jsobj "tools" R.tools
    let skills ← load_skill_requirements R.skills jsobj
    pure { tools := tools, qualities := qualities, components := components, skills := skills }

/-! ## Display tier of a skill requirement -/

/-- The function `skill_requirement::get_color`. -/
def skill_requirement.get_color (r : skill_requirement) (_player : player) : String :=
  let skill_level := _player.get_skill_level r.skill
  if skill_level < r.minimum then "red"
  else if skill_level < r.difficulty then "yellow"
  else "green"

/-! ## Auxiliary definitions used to state the theorems -/

/-- Laws of the `available` member: writing it changes nothing else, and `has`
does not read it. -/
class lawful_requirement (T : Type) [requirement T] : Prop where
  available_set : ∀ (t : T) (a : available_status),
    requirement.available (requirement.set_available t a) = a
  type_set : ∀ (t : T) (a : available_status),
    requirement.type (requirement.set_available t a) = requirement.type t
  has_set : ∀ (t : T) (a : available_status) (g : game) (inv : inventory) (b : Int),
    requirement.has (requirement.set_available t a) g inv b = requirement.has t g inv b
  set_set : ∀ (t : T) (a b : available_status),
    requirement.set_available (requirement.set_available t a) b = requirement.set_available t b

instance : lawful_requirement item_requirement where
  available_set _ _ := rfl
  type_set _ _ := rfl
  has_set _ _ _ _ _ := rfl
  set_set _ _ _ := rfl

instance : lawful_requirement quality_requirement where
  available_set _ _ := rfl
  type_set _ _ := rfl
  has_set _ _ _ _ _ := rfl
  set_set _ _ _ := rfl

/-- The body of the inner loop of `has_comps` for one alternative: the
alternative with its annotation set from its own `has` query. -/
def mark {T : Type} [requirement T] (g : game) (crafting_inv : inventory) (batch : Int)
    (tool : T) : T :=
  if requirement.has tool g crafting_inv batch then
    requirement.set_available tool a_true
  else
    requirement.set_available tool a_false

/-- The state of the requirement set after the three `has_comps` calls of
`can_make_with_inventory`, before `check_enough_materials`. -/
def resolved (R : requirement_data) (g : game) (crafting_inv : inventory) (batch : Int) :
    requirement_data :=
  { R with
    qualities := (has_comps g crafting_inv R.qualities 1).2
    tools := (has_comps g crafting_inv R.tools batch).2
    components := (has_comps g crafting_inv R.components batch).2 }

/-- The alternative number `j` of group number `i`, when there is one. -/
def alternative_at {T : Type} (vec : List (List T)) (i j : Nat) : Option T :=
  vec[i]?.bind (fun s => s[j]?)

/-- The pooled re-query of `check_enough_materials( comp, ... )` (line 754) for
`n` units of `type`: the condition under which the component is left alone is
`i_tmp.has( crafting_inv, 1 ) || t_tmp.has( crafting_inv, 1 )`. -/
def pooled_has (g : game) (crafting_inv : inventory) (type : String) (n : Int) : Bool :=
  (item_requirement.mk3 g type n false).has g crafting_inv 1 ||
    (item_requirement.mk3 g type n true).has g crafting_inv 1

/-- The rope override of `item_requirement::has` applies to `type`: the player
`g->u` has the trait `WEB_ROPE` and is not too hungry. -/
def web_rope_override (g : game) (type : String) : Prop :=
  (type = "rope_30" ∨ type = "rope_6") ∧
    (g.u.has_trait "WEB_ROPE" && decide (g.u.hunger ≤ 300)) = true

instance (g : game) (type : String) : Decidable (web_rope_override g type) := by
  unfold web_rope_override; infer_instance

/-! ## Example inputs -/

/-- A player without bionics, worn items or traits. -/
def plain_player : player :=
  { has_bionic := fun _ => false, is_wearing := fun _ => false, has_trait := fun _ => false,
    hunger := 0, int_cur := 8, get_skill_level := fun _ => 0,
    get_adjusted_skill_level := fun _ => 0 }

/-- A player with the trait `WEB_ROPE` who is not hungry. -/
def web_player : player :=
  { plain_player with has_trait := fun t => t == "WEB_ROPE" }

/-- A game whose items carry no qualities and in which the third constructor
argument of `item_requirement` is the `by_charges` flag. -/
def plain_game (u : player) : game :=
  { u := u, item_qualities := fun _ => [], ctor_by_charges := fun b => b }

/-- A game whose items carry no qualities and in which the third constructor
argument of `item_requirement` is another member, `by_charges` keeping its
initial value `false`. -/
def plain_game_by_count (u : player) : game :=
  { u := u, item_qualities := fun _ => [], ctor_by_charges := fun _ => false }

/-- An inventory that holds exactly one unit of `X` and nothing else: a query
for at most one `X` succeeds, every other query fails. -/
def one_unit_inventory (X : String) : inventory :=
  { has_tools := fun t n => t == X && decide (n ≤ 1)
    has_charges := fun t n => t == X && decide (n ≤ 1)
    has_components := fun t n => t == X && decide (n ≤ 1)
    has_items_with_quality := fun _ _ _ => false }

/-- One unit of `X`, counted by items, annotated `a`. -/
def one_of (X : String) (a : available_status) : item_requirement :=
  { type := X, count := 1, by_charges := false, recoverable := true, available := a }

/-- The requirement set that needs one `X` as a tool and one `X` as a
component, both annotated `a`. -/
def tool_and_component (X : String) (a : available_status) : requirement_data :=
  { tools := [[one_of X a]], qualities := [], components := [[one_of X a]], skills := [] }

/-- A game in which the item type `X` carries the quality `Q` at level `l` and
no other item type carries a quality. -/
def carrying_game (u : player) (X Q : String) (l : Int) : game :=
  { u := u, item_qualities := fun t => if t = X then [(Q, l)] else [],
    ctor_by_charges := fun b => b }

/-- An inventory that holds exactly one unit of `X`, which carries the quality
`Q` at level `l`, and nothing else. -/
def one_item_inventory (X Q : String) (l : Int) : inventory :=
  { has_tools := fun t n => t == X && decide (n ≤ 1)
    has_charges := fun t n => t == X && decide (n ≤ 1)
    has_components := fun t n => t == X && decide (n ≤ 1)
    has_items_with_quality := fun q lv n => q == Q && decide (lv ≤ l) && decide (n ≤ 1) }

/-- The requirement set that needs the quality `Q` at level `l` and one `X` as
a component, both annotated `a`. -/
def quality_and_component (X Q : String) (l : Int) (a : available_status) : requirement_data :=
  { tools := [], qualities := [[{ type := Q, level := l, available := a }]],
    components := [[one_of X a]], skills := [] }

/-- A requirement set with a group that offers a welder or a hammer as tool, a
group that offers a welder or a nail as component and a group of one nail. -/
def removal_example : requirement_data :=
  { tools := [[one_of "welder" a_false, one_of "hammer" a_false]], qualities := [],
    components := [[one_of "welder" a_false, one_of "nail" a_false], [one_of "nail" a_false]],
    skills := [] }

/-- The skill requirement loaded from `{"skill": "fabrication", "difficulty": 3}`:
the minimum defaults to the difficulty, the other members keep their
initialisers. -/
noncomputable def fabrication_3 : skill_requirement :=
  { skill := "fabrication", minimum := 3, difficulty := 3, base_success := 1 / 2,
    stat_factor := 1 / 8 }

/-- A requirement set whose only requirement is `fabrication_3`. -/
noncomputable def fabrication_only : requirement_data :=
  { tools := [], qualities := [], components := [],
    skills := [("fabrication", fabrication_3)] }

/-- A player of intelligence 8 whose level in every skill is 2, with no partial
progress. -/
def novice_player : player :=
  { plain_player with get_skill_level := fun _ => 2, get_adjusted_skill_level := fun _ => 2 }

/-- A skill requirement of difficulty 0 whose minimum is 5. -/
noncomputable def trivial_requirement : skill_requirement :=
  { skill := "cooking", minimum := 5, difficulty := 0, base_success := 1 / 2,
    stat_factor := 1 / 8 }

/-- The skill requirement loaded from
`{"skill": "fabrication", "min": 2, "difficulty": 3}`. -/
noncomputable def fabrication_2_3 : skill_requirement :=
  { skill := "fabrication", minimum := 2, difficulty := 3, base_success := 1 / 2,
    stat_factor := 1 / 8 }

/-- The same requirement for the skill `tailor`. -/
noncomputable def tailor_2_3 : skill_requirement :=
  { skill := "tailor", minimum := 2, difficulty := 3, base_success := 1 / 2,
    stat_factor := 1 / 8 }

/-- A requirement set with the given skills map and no tools, qualities or
components. -/
def skills_only (skills : List (String × skill_requirement)) : requirement_data :=
  { tools := [], qualities := [], components := [], skills := skills }

/-- A player of intelligence 8 whose level in every skill is 3, with no partial
progress. -/
def journeyman_player : player :=
  { plain_player with get_skill_level := fun _ => 3, get_adjusted_skill_level := fun _ => 3 }

/-- The player `novice_player` after the adjusted level in `fabrication` has
been raised from 2 to 3. -/
def fabrication_trained_player : player :=
  { novice_player with
    get_adjusted_skill_level := fun s => if s = "fabrication" then 3 else 2 }

/-- A requirement set whose only component group has no alternatives. -/
def empty_group_example : requirement_data :=
  { tools := [[one_of "welder" a_false]], qualities := [], components := [[]], skills := [] }

/-- A display without translation: messages are returned as they are, the
formatter returns its format, an item is named by its type, no quality is
registered. -/
def plain_display : display :=
  { gettext := fun msg => msg
    ngettext := fun singular plural n => if n = 1 then singular else plural
    string_format := fun fmt _ => fmt
    nname := fun t _ => t
    qualities := [] }

/-- The declaration `{"requirements": {"components": [ [] ]}}` in the current
format: one component group, written as an empty list of alternatives. -/
def empty_group_declaration : JsonObject :=
  [("requirements",
    json_value.object [("components", json_value.array [json_value.array []])])]

/-- The declaration `{"components": [ [] ]}` in the legacy flat format. -/
def legacy_empty_group_declaration : JsonObject :=
  [("components", json_value.array [json_value.array []])]

/-- The welding-goggles override of `item_requirement::has` applies to `type`:
the player `g->u` has the bionic `bio_sunglasses` or wears `rm13_armor_on`. -/
def goggles_override (g : game) (type : String) : Prop :=
  type = "goggles_welding" ∧
    (g.u.has_bionic "bio_sunglasses" || g.u.is_wearing "rm13_armor_on") = true

instance (g : game) (type : String) : Decidable (goggles_override g type) := by
  unfold goggles_override; infer_instance

/-- The requirement set `R` with every availability annotation reset to
`a_false`: what is left of `R` when the annotations are disregarded. -/
def clear_annotations (R : requirement_data) : requirement_data :=
  { tools := R.tools.map (List.map (fun t => { t with available := a_false }))
    qualities := R.qualities.map (List.map (fun q => { q with available := a_false }))
    components := R.components.map (List.map (fun c => { c with available := a_false }))
    skills := R.skills }

/-- The group `s` is non-empty and consists only of alternatives of the given
type. -/
def solely_of {T : Type} [requirement T] (type : String) (s : List T) : Prop :=
  s ≠ [] ∧ ∀ a ∈ s, requirement.type a = type

/-- The inventory query that stands for the alternative `r` at the given
batch: one tool when the count is 0, `count * batch` charges when the
requirement is by charges, `count * batch` components otherwise. -/
def inventory_query (crafting_inv : inventory) (r : item_requirement) (batch : Int) : Bool :=
  if r.count = 0 then crafting_inv.has_tools r.type 1
  else if r.by_charges then crafting_inv.has_charges r.type (r.count * batch)
  else crafting_inv.has_components r.type (r.count * batch)

/-- A skill requirement whose minimum 5 is above its difficulty 3. -/
noncomputable def strict_requirement : skill_requirement :=
  { skill := "mechanics", minimum := 5, difficulty := 3, base_success := 1 / 2,
    stat_factor := 1 / 8 }

/-- A player whose level in every skill is 4. -/
def level_4_player : player :=
  { plain_player with get_skill_level := fun _ => 4, get_adjusted_skill_level := fun _ => 4 }

/-- The requirement set that consists of two component groups, each with the
single alternative of `c` units of `X`. -/
def two_component_groups (X : String) (c : Int) : requirement_data :=
  { tools := [], qualities := [],
    components :=
      [[{ type := X, count := c, by_charges := false, recoverable := true,
          available := a_false }],
       [{ type := X, count := c, by_charges := false, recoverable := true,
          available := a_false }]],
    skills := [] }

/-- An inventory that holds exactly `n` units of `X` and nothing else. -/
def units_inventory (X : String) (n : Int) : inventory :=
  { has_tools := fun t k => t == X && decide (k ≤ n)
    has_charges := fun t k => t == X && decide (k ≤ n)
    has_components := fun t k => t == X && decide (k ≤ n)
    has_items_with_quality := fun _ _ _ => false }

/-- The alternative of `n` units of `X`, counted by items, annotated `a`. -/
def units_of (X : String) (n : Int) (a : available_status) : item_requirement :=
  { type := X, count := n, by_charges := false, recoverable := true, available := a }

/-- An inventory that holds exactly one unit of `X`, one unit of `Y` and
nothing else. -/
def pair_inventory (X Y : String) : inventory :=
  { has_tools := fun t n => (t == X || t == Y) && decide (n ≤ 1)
    has_charges := fun t n => (t == X || t == Y) && decide (n ≤ 1)
    has_components := fun t n => (t == X || t == Y) && decide (n ≤ 1)
    has_items_with_quality := fun _ _ _ => false }

/-- A requirement set in which the welder is a tool alternative twice: first
as 5 welders next to a hammer, then as 1 welder in a group of its own; one
welder is also the only component. The annotations are the ones that the
resolver writes for `pair_inventory "welder" "hammer"` at batch 1. -/
def first_match_example : requirement_data :=
  { tools := [[units_of "welder" 5 a_false, units_of "hammer" 1 a_true],
              [units_of "welder" 1 a_true]],
    qualities := [],
    components := [[units_of "welder" 1 a_true]],
    skills := [] }

/-- A requirement set whose second tool group consists of welders only; the
first and the third tool group and the component group offer a welder next to
another item. -/
def removal_true_example : requirement_data :=
  { tools := [[units_of "hammer" 1 a_false, units_of "welder" 1 a_false],
              [units_of "welder" 1 a_false, units_of "welder" 2 a_false],
              [units_of "welder" 1 a_false, units_of "nail" 1 a_false]],
    qualities := [],
    components := [[units_of "welder" 1 a_false, units_of "nail" 1 a_false]],
    skills := [] }

/-- A requirement set with two quality groups, the first offering `CUT` at
level 5 or `PRY` at level 1, the second requiring `CUT` at level 2, and one
component group requiring one knife. -/
def cut_and_pry_example : requirement_data :=
  { tools := [],
    qualities := [[{ type := "CUT", level := 5, available := a_false },
                   { type := "PRY", level := 1, available := a_false }],
                  [{ type := "CUT", level := 2, available := a_false }]],
    components := [[one_of "knife" a_false]],
    skills := [] }

/-- An inventory that holds exactly one knife, which carries `CUT` at level 2,
and one crowbar, which carries `PRY` at level 1, and nothing else. -/
def knife_and_crowbar_inventory : inventory :=
  { has_tools := fun t n => (t == "knife" || t == "crowbar") && decide (n ≤ 1)
    has_charges := fun t n => (t == "knife" || t == "crowbar") && decide (n ≤ 1)
    has_components := fun t n => (t == "knife" || t == "crowbar") && decide (n ≤ 1)
    has_items_with_quality := fun q lv n =>
      ((q == "CUT" && decide (lv ≤ 2)) || (q == "PRY" && decide (lv ≤ 1))) && decide (n ≤ 1) }

section resolver
variable {T : Type} [requirement T]

theorem has_comps_set_snd (g : game) (inv : inventory) (b : Int) (l : List T) (acc : Bool) :
    (has_comps_set g inv b l acc).2 = l.map (mark g inv b) := by
  induction l generalizing acc with
  | nil => rfl
  | cons t rest ih => simp [has_comps_set, ih, mark]

theorem available_mark [lawful_requirement T] (g : game) (inv : inventory) (b : Int) (t : T) :
    requirement.available (mark g inv b t) = a_true ↔ requirement.has t g inv b = true := by
  unfold mark
  by_cases h : requirement.has t g inv b = true
  · simp [h, lawful_requirement.available_set]
  · simp [h, lawful_requirement.available_set]

theorem available_mark_ne [lawful_requirement T] (g : game) (inv : inventory) (b : Int) (t : T) :
    requirement.available (mark g inv b t) ≠ a_insufficent := by
  unfold mark
  by_cases h : requirement.has t g inv b = true
  · simp [h, lawful_requirement.available_set]
  · simp [h, lawful_requirement.available_set]

theorem has_comps_set_fst [lawful_requirement T] (g : game) (inv : inventory) (b : Int)
    (l : List T) (acc : Bool) :
    (has_comps_set g inv b l acc).1 = (acc || l.any (fun t => requirement.has t g inv b)) := by
  induction l generalizing acc with
  | nil => simp [has_comps_set]
  | cons t rest ih =>
    have h := available_mark g inv b t
    unfold mark at h
    simp only [has_comps_set, ih, List.any_cons]
    by_cases ht : requirement.has t g inv b = true
    · simp [ht, lawful_requirement.available_set]
    · simp [ht, lawful_requirement.available_set]

theorem has_comps_loop_snd (g : game) (inv : inventory) (b : Int) (vec : List (List T))
    (rv : Bool) :
    (has_comps_loop g inv b vec rv).2 = vec.map (List.map (mark g inv b)) := by
  induction vec generalizing rv with
  | nil => rfl
  | cons s rest ih => simp [has_comps_loop, ih, has_comps_set_snd]

theorem has_comps_loop_fst [lawful_requirement T] (g : game) (inv : inventory) (b : Int)
    (vec : List (List T)) (rv : Bool) :
    (has_comps_loop g inv b vec rv).1 =
      (rv && vec.all (fun s => s.any (fun t => requirement.has t g inv b))) := by
  induction vec generalizing rv with
  | nil => simp [has_comps_loop]
  | cons s rest ih =>
    simp only [has_comps_loop, ih, has_comps_set_fst, List.all_cons, Bool.false_or]
    cases rv <;> cases (s.any fun t => requirement.has t g inv b) <;> simp

theorem has_comps_snd (g : game) (inv : inventory) (b : Int) (vec : List (List T)) :
    (has_comps g inv vec b).2 = vec.map (List.map (mark g inv b)) :=
  has_comps_loop_snd g inv b vec true

theorem has_comps_fst [lawful_requirement T] (g : game) (inv : inventory) (b : Int)
    (vec : List (List T)) :
    (has_comps g inv vec b).1 = vec.all (fun s => s.any (fun t => requirement.has t g inv b)) := by
  simp [has_comps, has_comps_loop_fst]

end resolver

/-! ## The reconciler, characterised -/

theorem check_tool_overlap_available (tools : List (List item_requirement)) (g : game)
    (comp : item_requirement) (inv : inventory) (b : Int) :
    (check_tool_overlap tools g comp inv b).available = comp.available ∨
      (check_tool_overlap tools g comp inv b).available = a_insufficent := by
  unfold check_tool_overlap
  cases find_by_type tools comp.type with
  | none => simp
  | some tq =>
    simp only
    split_ifs <;> simp

theorem check_quality_overlap_available (qualities : List (List quality_requirement))
    (inv : inventory) (qls : List (String × Int)) (comp : item_requirement) :
    (check_quality_overlap qualities inv qls comp).available = comp.available ∨
      (check_quality_overlap qualities inv qls comp).available = a_insufficent := by
  induction qls generalizing comp with
  | nil => simp [check_quality_overlap]
  | cons ql rest ih =>
    unfold check_quality_overlap
    cases find_by_type qualities ql.1 with
    | none => exact ih comp
    | some qr =>
      simp only
      split_ifs
      · exact ih comp
      · rcases ih { comp with available := a_insufficent } with h | h
        · right; rw [h]
        · right; exact h
      · exact ih comp

theorem check_quality_overlap_insufficent (qualities : List (List quality_requirement))
    (inv : inventory) (qls : List (String × Int)) (comp : item_requirement)
    (h : comp.available = a_insufficent) :
    (check_quality_overlap qualities inv qls comp).available = a_insufficent := by
  rcases check_quality_overlap_available qualities inv qls comp with h1 | h1
  · rw [h1, h]
  · exact h1

theorem check_enough_materials_comp_fst (R : requirement_data) (g : game)
    (comp : item_requirement) (inv : inventory) (b : Int) :
    (check_enough_materials_comp R g comp inv b).1 =
      decide ((check_enough_materials_comp R g comp inv b).2.available = a_true) := by
  unfold check_enough_materials_comp
  by_cases h : comp.available = a_true
  · simp [h]
  · simp [h]

theorem check_enough_materials_comp_available (R : requirement_data) (g : game)
    (comp : item_requirement) (inv : inventory) (b : Int) :
    (check_enough_materials_comp R g comp inv b).2.available = comp.available ∨
      ((check_enough_materials_comp R g comp inv b).2.available = a_insufficent ∧
        comp.available = a_true) := by
  unfold check_enough_materials_comp
  by_cases h : comp.available = a_true
  · simp only [h, ne_eq, not_true_eq_false, if_false]
    rcases check_quality_overlap_available R.qualities inv (g.item_qualities comp.type)
      (check_tool_overlap R.tools g comp inv b) with h1 | h1
    · rcases check_tool_overlap_available R.tools g comp inv b with h2 | h2
      · left; rw [h1, h2, h]
      · right; rw [h1, h2]; simp
    · right; simp [h1]
  · simp [h]

theorem check_enough_materials_choices_snd (R : requirement_data) (g : game) (inv : inventory)
    (b : Int) (l : List item_requirement) (acc : Bool) :
    (check_enough_materials_choices R g inv b l acc).2 =
      l.map (fun c => (check_enough_materials_comp R g c inv b).2) := by
  induction l generalizing acc with
  | nil => rfl
  | cons c rest ih => simp [check_enough_materials_choices, ih]

theorem check_enough_materials_choices_fst (R : requirement_data) (g : game) (inv : inventory)
    (b : Int) (l : List item_requirement) (acc : Bool) :
    (check_enough_materials_choices R g inv b l acc).1 =
      (acc || l.any (fun c => (check_enough_materials_comp R g c inv b).1)) := by
  induction l generalizing acc with
  | nil => simp [check_enough_materials_choices]
  | cons c rest ih =>
    simp only [check_enough_materials_choices, ih, List.any_cons]
    cases acc <;> cases (check_enough_materials_comp R g c inv b).1 <;> simp

theorem check_enough_materials_loop_snd (R : requirement_data) (g : game) (inv : inventory)
    (b : Int) (vec : List (List item_requirement)) (rv : Bool) :
    (check_enough_materials_loop R g inv b vec rv).2 =
      vec.map (List.map (fun c => (check_enough_materials_comp R g c inv b).2)) := by
  induction vec generalizing rv with
  | nil => rfl
  | cons s rest ih =>
    simp [check_enough_materials_loop, ih, check_enough_materials_choices_snd]

theorem check_enough_materials_loop_fst (R : requirement_data) (g : game) (inv : inventory)
    (b : Int) (vec : List (List item_requirement)) (rv : Bool) :
    (check_enough_materials_loop R g inv b vec rv).1 =
      (rv && vec.all (fun s => s.any (fun c => (check_enough_materials_comp R g c inv b).1))) := by
  induction vec generalizing rv with
  | nil => simp [check_enough_materials_loop]
  | cons s rest ih =>
    simp only [check_enough_materials_loop, ih, check_enough_materials_choices_fst,
      List.all_cons, Bool.false_or]
    cases rv <;> cases (s.any fun c => (check_enough_materials_comp R g c inv b).1) <;> simp

theorem check_enough_materials_snd (R : requirement_data) (g : game) (inv : inventory)
    (b : Int) :
    (check_enough_materials R g inv b).2 =
      { R with components :=
          R.components.map (List.map (fun c => (check_enough_materials_comp R g c inv b).2)) } := by
  simp [check_enough_materials, check_enough_materials_loop_snd]

theorem check_enough_materials_fst (R : requirement_data) (g : game) (inv : inventory)
    (b : Int) :
    (check_enough_materials R g inv b).1 =
      R.components.all (fun s => s.any (fun c => (check_enough_materials_comp R g c inv b).1)) := by
  simp [check_enough_materials, check_enough_materials_loop_fst]

/-! ## `can_make_with_inventory`, characterised -/

theorem can_make_with_inventory_snd (R : requirement_data) (g : game) (inv : inventory)
    (b : Int) :
    (can_make_with_inventory R g inv b).2 =
      (check_enough_materials (resolved R g inv b) g inv b).2 := by
  rfl

theorem can_make_with_inventory_fst (R : requirement_data) (g : game) (inv : inventory)
    (b : Int) :
    (can_make_with_inventory R g inv b).1 =
      ((has_comps g inv R.qualities 1).1 && (has_comps g inv R.tools b).1 &&
        (has_comps g inv R.components b).1 &&
        (check_enough_materials (resolved R g inv b) g inv b).1) := by
  have h : (can_make_with_inventory R g inv b).1 =
      (if !(check_enough_materials (resolved R g inv b) g inv b).1 then false
       else if !(has_comps g inv R.components b).1 then false
       else if !(has_comps g inv R.tools b).1 then false
       else if !(has_comps g inv R.qualities 1).1 then false else true) := rfl
  rw [h]
  cases (has_comps g inv R.qualities 1).1 <;> cases (has_comps g inv R.tools b).1 <;>
    cases (has_comps g inv R.components b).1 <;>
    cases (check_enough_materials (resolved R g inv b) g inv b).1 <;> rfl

theorem alternative_at_map {T : Type} (f : T → T) (vec : List (List T)) (i j : Nat) :
    alternative_at (vec.map (List.map f)) i j = (alternative_at vec i j).map f := by
  unfold alternative_at
  rw [List.getElem?_map]
  cases vec[i]? with
  | none => rfl
  | some s => simp [List.getElem?_map]

theorem find_by_type_type {T : Type} [requirement T] (vec : List (List T)) (type : String)
    (x : T) (h : find_by_type vec type = some x) : requirement.type x = type := by
  induction vec with
  | nil => simp [find_by_type] at h
  | cons l rest ih =>
    unfold find_by_type at h
    cases hf : l.find? (fun comp => decide (requirement.type comp = type)) with
    | none => rw [hf] at h; exact ih h
    | some c =>
      rw [hf] at h
      cases h
      simpa using List.find?_some hf

theorem check_quality_overlap_frame (qualities : List (List quality_requirement))
    (inv : inventory) (qls : List (String × Int)) (comp : item_requirement) :
    check_quality_overlap qualities inv qls comp =
      { comp with available := (check_quality_overlap qualities inv qls comp).available } := by
  induction qls generalizing comp with
  | nil => rfl
  | cons ql rest ih =>
    unfold check_quality_overlap
    cases find_by_type qualities ql.1 with
    | none => exact ih comp
    | some qr =>
      simp only
      split_ifs
      · exact ih comp
      · exact ih { comp with available := a_insufficent }
      · exact ih comp

theorem check_tool_overlap_frame (tools : List (List item_requirement)) (g : game)
    (comp : item_requirement) (inv : inventory) (b : Int) :
    check_tool_overlap tools g comp inv b =
      { comp with available := (check_tool_overlap tools g comp inv b).available } := by
  unfold check_tool_overlap
  cases find_by_type tools comp.type with
  | none => rfl
  | some tq =>
    simp only
    split_ifs <;> rfl

theorem check_tool_overlap_of_pooled (tools : List (List item_requirement)) (g : game)
    (comp tq : item_requirement) (inv : inventory) (b : Int)
    (hfind : find_by_type tools comp.type = some tq) (htq : tq.available = a_true)
    (hpool : pooled_has g inv comp.type
      (comp.count * b + (if tq.by_charges then 1 else tq.count)) = false) :
    check_tool_overlap tools g comp inv b = { comp with available := a_insufficent } := by
  unfold pooled_has at hpool
  rw [Bool.or_eq_false_iff] at hpool
  unfold check_tool_overlap
  rw [hfind]
  simp only [htq, if_true, hpool.1, hpool.2, Bool.not_false, Bool.and_self]

theorem check_enough_materials_comp_of_insufficent (R : requirement_data) (g : game)
    (comp : item_requirement) (inv : inventory) (b : Int) (hav : comp.available = a_true)
    (h : (check_quality_overlap R.qualities inv (g.item_qualities comp.type)
      (check_tool_overlap R.tools g comp inv b)).available = a_insufficent) :
    check_enough_materials_comp R g comp inv b =
      (false, { comp with available := a_insufficent }) := by
  unfold check_enough_materials_comp
  simp only [hav, ne_eq, not_true_eq_false, if_false]
  rw [check_quality_overlap_frame, h, check_tool_overlap_frame]
  simp

theorem groups_mark_iff {T : Type} [requirement T] [lawful_requirement T] (g : game)
    (inv : inventory) (b : Int) (vec : List (List T)) :
    (∀ s ∈ vec.map (List.map (mark g inv b)), ∃ t ∈ s, requirement.available t = a_true) ↔
      vec.all (fun s => s.any (fun t => requirement.has t g inv b)) = true := by
  simp only [List.mem_map, forall_exists_index, and_imp, forall_apply_eq_imp_iff₂,
    exists_exists_and_eq_and, available_mark, List.all_eq_true, List.any_eq_true]

theorem groups_reconciled_iff (R : requirement_data) (g : game) (inv : inventory) (b : Int)
    (vec : List (List item_requirement)) :
    (∀ s ∈ vec.map (List.map (fun c => (check_enough_materials_comp R g c inv b).2)),
        ∃ c ∈ s, c.available = a_true) ↔
      vec.all (fun s => s.any (fun c => (check_enough_materials_comp R g c inv b).1)) = true := by
  simp only [List.mem_map, forall_exists_index, and_imp, forall_apply_eq_imp_iff₂,
    exists_exists_and_eq_and, List.all_eq_true, List.any_eq_true]
  constructor
  · intro h s hs
    obtain ⟨c, hc, hav⟩ := h s hs
    exact ⟨c, hc, by rw [check_enough_materials_comp_fst]; simpa using hav⟩
  · intro h s hs
    obtain ⟨c, hc, hav⟩ := h s hs
    rw [check_enough_materials_comp_fst] at hav
    exact ⟨c, hc, by simpa using hav⟩

theorem reconciled_available_imp (R : requirement_data) (g : game) (inv : inventory) (b : Int)
    (c : item_requirement)
    (h : (check_enough_materials_comp R g c inv b).2.available = a_true) :
    c.available = a_true := by
  rcases check_enough_materials_comp_available R g c inv b with h1 | ⟨h1, _⟩
  · rw [← h1, h]
  · rw [h1] at h; cases h

/-- C1. `can_make_with_inventory` returns `true` exactly when, in the
annotations it leaves behind, every group of tools, of qualities and of
components has an alternative annotated `a_true`. -/
theorem can_make_with_inventory_iff_every_group_available (R : requirement_data) (g : game)
    (crafting_inv : inventory) (batch : Int) :
    (can_make_with_inventory R g crafting_inv batch).1 = true ↔
      ((∀ s ∈ (can_make_with_inventory R g crafting_inv batch).2.tools,
          ∃ t ∈ s, t.available = a_true) ∧
       (∀ s ∈ (can_make_with_inventory R g crafting_inv batch).2.qualities,
          ∃ q ∈ s, q.available = a_true) ∧
       (∀ s ∈ (can_make_with_inventory R g crafting_inv batch).2.components,
          ∃ c ∈ s, c.available = a_true)) := by
  have ht : (can_make_with_inventory R g crafting_inv batch).2.tools =
      R.tools.map (List.map (mark g crafting_inv batch)) := by
    rw [can_make_with_inventory_snd, check_enough_materials_snd]
    exact has_comps_snd g crafting_inv batch R.tools
  have hq : (can_make_with_inventory R g crafting_inv batch).2.qualities =
      R.qualities.map (List.map (mark g crafting_inv 1)) := by
    rw [can_make_with_inventory_snd, check_enough_materials_snd]
    exact has_comps_snd g crafting_inv 1 R.qualities
  have hc : (can_make_with_inventory R g crafting_inv batch).2.components =
      ((R.components.map (List.map (mark g crafting_inv batch))).map (List.map (fun c =>
        (check_enough_materials_comp (resolved R g crafting_inv batch) g c crafting_inv
          batch).2))) := by
    rw [can_make_with_inventory_snd, check_enough_materials_snd]
    show List.map _ (has_comps g crafting_inv R.components batch).2 = _
    rw [has_comps_snd]
  have hr : (resolved R g crafting_inv batch).components =
      R.components.map (List.map (mark g crafting_inv batch)) :=
    has_comps_snd g crafting_inv batch R.components
  have kt := groups_mark_iff g crafting_inv batch R.tools
  have kq := groups_mark_iff g crafting_inv 1 R.qualities
  have kc := groups_mark_iff g crafting_inv batch R.components
  have km := groups_reconciled_iff (resolved R g crafting_inv batch) g crafting_inv batch
    (R.components.map (List.map (mark g crafting_inv batch)))
  rw [ht, hq, hc, can_make_with_inventory_fst, has_comps_fst, has_comps_fst, has_comps_fst,
    check_enough_materials_fst, hr]
  simp only [Bool.and_eq_true]
  constructor
  · rintro ⟨⟨⟨h1, h2⟩, _⟩, h4⟩
    exact ⟨kt.mpr h2, kq.mpr h1, km.mpr h4⟩
  · rintro ⟨h2, h1, h4⟩
    refine ⟨⟨⟨kq.mp h1, kt.mp h2⟩, ?_⟩, km.mp h4⟩
    refine kc.mp ?_
    intro s hs
    obtain ⟨s0, hs0, rfl⟩ := List.mem_map.mp hs
    have h5 := h4 _ (List.mem_map_of_mem _ (List.mem_map_of_mem (List.map (mark g crafting_inv batch)) hs0))
    obtain ⟨c, hc1, hc2⟩ := h5
    obtain ⟨c0, hc0, rfl⟩ := List.mem_map.mp hc1
    exact ⟨c0, hc0, reconciled_available_imp _ g crafting_inv batch c0 hc2⟩

theorem check_quality_overlap_of_quality (qualities : List (List quality_requirement))
    (inv : inventory) (qls : List (String × Int)) (comp : item_requirement)
    (q : String) (l : Int) (qr : quality_requirement) (hq : (q, l) ∈ qls)
    (hfind : find_by_type qualities q = some qr) (hlevel : qr.level ≤ l)
    (hinv : inv.has_items_with_quality q qr.level (comp.count + 1) = false) :
    (check_quality_overlap qualities inv qls comp).available = a_insufficent := by
  have hty : qr.type = q := find_by_type_type qualities q qr hfind
  induction qls generalizing comp with
  | nil => cases hq
  | cons ql rest ih =>
    rcases List.mem_cons.mp hq with h | h
    · subst h
      unfold check_quality_overlap
      simp only [hfind, gt_iff_lt, not_lt.mpr hlevel, if_false, hty, add_comm 1 comp.count, hinv,
        Bool.not_false, if_true]
      exact check_quality_overlap_insufficent qualities inv rest _ rfl
    · unfold check_quality_overlap
      cases find_by_type qualities ql.1 with
      | none => exact ih comp h hinv
      | some qr1 =>
        simp only
        split_ifs
        · exact ih comp h hinv
        · exact check_quality_overlap_insufficent qualities inv rest _ rfl
        · exact ih comp h hinv

/-- C2, as the code has it. For a component alternative annotated `a_true`
whose type's first-matching tool entry is annotated `a_true`: if the pooled
re-query of `item_requirement::has` for (component count x batch) + (1 if the
tool is by charges, else the tool's count) units fails, then after
`check_enough_materials` the component is annotated `a_insufficent`, nothing
else of it is changed, and it is not counted as satisfying its group. -/
theorem tool_overlap_downgrades_component (R : requirement_data) (g : game)
    (crafting_inv : inventory) (batch : Int) (i j : Nat) (comp tq : item_requirement)
    (hcomp : alternative_at R.components i j = some comp)
    (hav : comp.available = a_true)
    (hfind : find_by_type R.tools comp.type = some tq)
    (htq : tq.available = a_true)
    (hpool : pooled_has g crafting_inv comp.type
      (comp.count * batch + (if tq.by_charges then 1 else tq.count)) = false) :
    alternative_at (check_enough_materials R g crafting_inv batch).2.components i j =
        some { comp with available := a_insufficent } ∧
      (check_enough_materials_comp R g comp crafting_inv batch).1 = false := by
  have h := check_enough_materials_comp_of_insufficent R g comp crafting_inv batch hav
    (by
      rw [check_tool_overlap_of_pooled R.tools g comp tq crafting_inv batch hfind htq hpool]
      exact check_quality_overlap_insufficent _ _ _ _ rfl)
  rw [check_enough_materials_snd]
  simp only [alternative_at_map, hcomp, Option.map_some', h, and_self]

/-- Witness for C2: one welder in the inventory, one welder needed as a tool
and one as a component. -/
theorem tool_overlap_downgrades_component_witness :
    alternative_at (tool_and_component "welder" a_true).components 0 0 =
        some (one_of "welder" a_true) ∧
      (one_of "welder" a_true).available = a_true ∧
      find_by_type (tool_and_component "welder" a_true).tools (one_of "welder" a_true).type =
        some (one_of "welder" a_true) ∧
      pooled_has (plain_game plain_player) (one_unit_inventory "welder")
        (one_of "welder" a_true).type
        ((one_of "welder" a_true).count * 1 +
          (if (one_of "welder" a_true).by_charges then 1 else (one_of "welder" a_true).count)) =
        false ∧
      (alternative_at (check_enough_materials (tool_and_component "welder" a_true)
          (plain_game plain_player) (one_unit_inventory "welder") 1).2.components 0 0 =
        some { one_of "welder" a_true with available := a_insufficent } ∧
      (check_enough_materials_comp (tool_and_component "welder" a_true)
        (plain_game plain_player) (one_of "welder" a_true) (one_unit_inventory "welder") 1).1 =
        false) :=
  ⟨by decide, by decide, by decide, by decide,
    tool_overlap_downgrades_component (tool_and_component "welder" a_true)
      (plain_game plain_player) (one_unit_inventory "welder") 1 0 0
      (one_of "welder" a_true) (one_of "welder" a_true)
      (by decide) (by decide) (by decide) (by decide) (by decide)⟩

/-- Counterexample to C2 as stated. The player has `WEB_ROPE`, the inventory
holds one `rope_30`, one `rope_30` is needed as a tool and one as a component,
both annotated `a_true`. No inventory query for the pooled demand of two
`rope_30` succeeds, yet the component is still annotated `a_true` after
`check_enough_materials` and is counted, under both readings of the third
constructor argument of `item_requirement`. -/
theorem tool_overlap_rope_stays_available :
    alternative_at (tool_and_component "rope_30" a_true).components 0 0 =
        some (one_of "rope_30" a_true) ∧
      (one_of "rope_30" a_true).available = a_true ∧
      find_by_type (tool_and_component "rope_30" a_true).tools "rope_30" =
        some (one_of "rope_30" a_true) ∧
      (one_of "rope_30" a_true).count * 1 +
          (if (one_of "rope_30" a_true).by_charges then 1 else (one_of "rope_30" a_true).count) = 2 ∧
      (one_unit_inventory "rope_30").has_components "rope_30" 2 = false ∧
      (one_unit_inventory "rope_30").has_charges "rope_30" 2 = false ∧
      (one_unit_inventory "rope_30").has_tools "rope_30" 2 = false ∧
      alternative_at (check_enough_materials (tool_and_component "rope_30" a_true)
          (plain_game web_player) (one_unit_inventory "rope_30") 1).2.components 0 0 =
        some (one_of "rope_30" a_true) ∧
      (check_enough_materials_comp (tool_and_component "rope_30" a_true)
        (plain_game web_player) (one_of "rope_30" a_true) (one_unit_inventory "rope_30") 1).1 =
        true ∧
      alternative_at (check_enough_materials (tool_and_component "rope_30" a_true)
          (plain_game_by_count web_player) (one_unit_inventory "rope_30") 1).2.components 0 0 =
        some (one_of "rope_30" a_true) ∧
      (check_enough_materials_comp (tool_and_component "rope_30" a_true)
        (plain_game_by_count web_player) (one_of "rope_30" a_true)
        (one_unit_inventory "rope_30") 1).1 = true := by
  decide

/-- C3. For a component alternative annotated `a_true` and an intrinsic
quality `(q, l)` of its item type whose first-matching quality requirement has
level at most `l`: if the inventory does not hold (component count + 1) items
with `q` at the required level, then after `check_enough_materials` the
component is annotated `a_insufficent`, for every batch. -/
theorem quality_overlap_downgrades_component (R : requirement_data) (g : game)
    (crafting_inv : inventory) (batch : Int) (i j : Nat) (comp : item_requirement)
    (q : String) (l : Int) (qr : quality_requirement)
    (hcomp : alternative_at R.components i j = some comp)
    (hav : comp.available = a_true)
    (hq : (q, l) ∈ g.item_qualities comp.type)
    (hfind : find_by_type R.qualities q = some qr)
    (hlevel : qr.level ≤ l)
    (hinv : crafting_inv.has_items_with_quality q qr.level (comp.count + 1) = false) :
    alternative_at (check_enough_materials R g crafting_inv batch).2.components i j =
      some { comp with available := a_insufficent } := by
  have hcount : (check_tool_overlap R.tools g comp crafting_inv batch).count = comp.count := by
    rw [check_tool_overlap_frame]
  have h := check_enough_materials_comp_of_insufficent R g comp crafting_inv batch hav
    (check_quality_overlap_of_quality R.qualities crafting_inv _ _ q l qr hq hfind hlevel
      (by rw [hcount]; exact hinv))
  rw [check_enough_materials_snd]
  simp only [alternative_at_map, hcomp, Option.map_some', h]

/-- Witness for C3: a hammer carries `HAMMER` at level 2, the inventory holds
one hammer, the requirement set needs `HAMMER` 2 and one hammer as component. -/
theorem quality_overlap_downgrades_component_witness :
    alternative_at (quality_and_component "hammer" "HAMMER" 2 a_true).components 0 0 =
        some (one_of "hammer" a_true) ∧
      (one_of "hammer" a_true).available = a_true ∧
      (("HAMMER", 2) : String × Int) ∈
        (carrying_game plain_player "hammer" "HAMMER" 2).item_qualities
          (one_of "hammer" a_true).type ∧
      find_by_type (quality_and_component "hammer" "HAMMER" 2 a_true).qualities "HAMMER" =
        some { type := "HAMMER", level := 2, available := a_true } ∧
      ({ type := "HAMMER", level := 2, available := a_true } : quality_requirement).level ≤ 2 ∧
      (one_item_inventory "hammer" "HAMMER" 2).has_items_with_quality "HAMMER" 2
        ((one_of "hammer" a_true).count + 1) = false ∧
      alternative_at (check_enough_materials (quality_and_component "hammer" "HAMMER" 2 a_true)
          (carrying_game plain_player "hammer" "HAMMER" 2)
          (one_item_inventory "hammer" "HAMMER" 2) 5).2.components 0 0 =
        some { one_of "hammer" a_true with available := a_insufficent } :=
  ⟨by decide, by decide, by decide, by decide, by decide, by decide,
    quality_overlap_downgrades_component (quality_and_component "hammer" "HAMMER" 2 a_true)
      (carrying_game plain_player "hammer" "HAMMER" 2) (one_item_inventory "hammer" "HAMMER" 2)
      5 0 0 (one_of "hammer" a_true) "HAMMER" 2
      { type := "HAMMER", level := 2, available := a_true }
      (by decide) (by decide) (by decide) (by decide) (by decide) (by decide)⟩

/-! ## Contention scenarios -/

theorem type_mark {T : Type} [requirement T] [lawful_requirement T] (g : game)
    (inv : inventory) (b : Int) (t : T) :
    requirement.type (mark g inv b t) = requirement.type t := by
  unfold mark
  split_ifs <;> exact lawful_requirement.type_set _ _

theorem find_by_type_mark {T : Type} [requirement T] [lawful_requirement T] (g : game)
    (inv : inventory) (b : Int) (vec : List (List T)) (type : String) :
    find_by_type (vec.map (List.map (mark g inv b))) type =
      (find_by_type vec type).map (mark g inv b) := by
  induction vec with
  | nil => rfl
  | cons l rest ih =>
    have hp : ((fun comp : T => decide (requirement.type comp = type)) ∘ mark g inv b) =
        (fun comp : T => decide (requirement.type comp = type)) := by
      funext t
      simp [type_mark]
    simp only [List.map_cons, find_by_type, List.find?_map, hp, ih]
    cases l.find? (fun comp => decide (requirement.type comp = type)) with
    | none => rfl
    | some c => rfl

theorem mark_item (g : game) (inv : inventory) (b : Int) (t : item_requirement) :
    mark g inv b t = { t with available := (mark g inv b t).available } := by
  unfold mark
  split_ifs <;> rfl

theorem can_make_false_of_component_mem (R : requirement_data) (g : game) (inv : inventory)
    (b : Int) (c : item_requirement) (hc : [c] ∈ R.components)
    (h : (check_enough_materials_comp (resolved R g inv b) g (mark g inv b c) inv b).1 = false) :
    (can_make_with_inventory R g inv b).1 = false := by
  have hr : (resolved R g inv b).components = R.components.map (List.map (mark g inv b)) :=
    has_comps_snd g inv b R.components
  have hcheck : (check_enough_materials (resolved R g inv b) g inv b).1 = false := by
    rw [check_enough_materials_fst, hr, ← Bool.not_eq_true, List.all_eq_true]
    intro hall
    have h1 := hall _ (List.mem_map_of_mem (List.map (mark g inv b)) hc)
    simp [h] at h1
  rw [can_make_with_inventory_fst, hcheck]
  simp

/-- C5, as the code has it. The item type `X` carries the quality `Q` at level
2, the requirement set has a quality group whose only alternative requires `Q`
at level 2 and a component group whose only alternative is one `X`, that
quality requirement is the first quality alternative of type `Q` in the set (in
group order, then alternative order), and the inventory does not hold two or
more items with `Q` at level 2. Then `can_make_with_inventory` returns `false`,
for every batch and whatever the tools and the other groups are. -/
theorem quality_contention (R : requirement_data) (g : game) (crafting_inv : inventory)
    (batch : Int) (X Q : String) (q : quality_requirement) (c : item_requirement)
    (hX : (Q, 2) ∈ g.item_qualities X)
    (hq : [q] ∈ R.qualities ∧ q.type = Q ∧ q.level = 2)
    (hfirst : find_by_type R.qualities Q = some q)
    (hc : [c] ∈ R.components ∧ c.type = X ∧ c.count = 1)
    (hmany : ∀ n : Int, 2 ≤ n → crafting_inv.has_items_with_quality Q 2 n = false) :
    (can_make_with_inventory R g crafting_inv batch).1 = false := by
  apply can_make_false_of_component_mem R g crafting_inv batch c hc.1
  by_cases hca : (mark g crafting_inv batch c).available = a_true
  · have hty : (mark g crafting_inv batch c).type = X := by rw [mark_item]; exact hc.2.1
    have hfind : find_by_type (resolved R g crafting_inv batch).qualities Q =
        some (mark g crafting_inv 1 q) := by
      have h1 : (resolved R g crafting_inv batch).qualities =
          R.qualities.map (List.map (mark g crafting_inv 1)) :=
        has_comps_snd g crafting_inv 1 R.qualities
      rw [h1, find_by_type_mark, hfirst]
      rfl
    have hlevel : (mark g crafting_inv 1 q).level = 2 := by
      unfold mark
      split_ifs <;> exact hq.2.2
    have hcount : (check_tool_overlap (resolved R g crafting_inv batch).tools g
        (mark g crafting_inv batch c) crafting_inv batch).count = 1 := by
      rw [check_tool_overlap_frame, mark_item]; exact hc.2.2
    have h := check_enough_materials_comp_of_insufficent (resolved R g crafting_inv batch) g
      (mark g crafting_inv batch c) crafting_inv batch hca
      (check_quality_overlap_of_quality _ crafting_inv _ _ Q 2 _ (by rw [hty]; exact hX) hfind
        (by rw [hlevel])
        (by rw [hlevel, hcount]; exact hmany 2 (le_refl 2)))
    rw [h]
  · unfold check_enough_materials_comp
    simp [hca]

/-- Witness for C5: a hammer carries `HAMMER` at level 2, the inventory holds
one hammer, the requirement set needs `HAMMER` 2 and one hammer as component. -/
theorem quality_contention_witness :
    (("HAMMER", 2) : String × Int) ∈
        (carrying_game plain_player "hammer" "HAMMER" 2).item_qualities "hammer" ∧
      ([({ type := "HAMMER", level := 2, available := a_false } : quality_requirement)] ∈
          (quality_and_component "hammer" "HAMMER" 2 a_false).qualities ∧
        ({ type := "HAMMER", level := 2, available := a_false } : quality_requirement).type =
          "HAMMER" ∧
        ({ type := "HAMMER", level := 2, available := a_false } : quality_requirement).level =
          2) ∧
      find_by_type (quality_and_component "hammer" "HAMMER" 2 a_false).qualities "HAMMER" =
        some { type := "HAMMER", level := 2, available := a_false } ∧
      ([one_of "hammer" a_false] ∈
          (quality_and_component "hammer" "HAMMER" 2 a_false).components ∧
        (one_of "hammer" a_false).type = "hammer" ∧ (one_of "hammer" a_false).count = 1) ∧
      (one_item_inventory "hammer" "HAMMER" 2).has_components "hammer" 1 = true ∧
      (one_item_inventory "hammer" "HAMMER" 2).has_items_with_quality "HAMMER" 2 1 = true ∧
      (∀ n : Int, 2 ≤ n →
        (one_item_inventory "hammer" "HAMMER" 2).has_items_with_quality "HAMMER" 2 n = false) ∧
      (can_make_with_inventory (quality_and_component "hammer" "HAMMER" 2 a_false)
        (carrying_game plain_player "hammer" "HAMMER" 2)
        (one_item_inventory "hammer" "HAMMER" 2) 1).1 = false :=
  have hmany : ∀ n : Int, 2 ≤ n →
      (one_item_inventory "hammer" "HAMMER" 2).has_items_with_quality "HAMMER" 2 n = false := by
    intro n hn
    have h : ¬ n ≤ 1 := by omega
    simp [one_item_inventory, h]
  ⟨by decide, by decide, by decide, by decide, by decide, by decide, hmany,
    quality_contention (quality_and_component "hammer" "HAMMER" 2 a_false)
      (carrying_game plain_player "hammer" "HAMMER" 2) (one_item_inventory "hammer" "HAMMER" 2)
      1 "hammer" "HAMMER" { type := "HAMMER", level := 2, available := a_false }
      (one_of "hammer" a_false) (by decide) (by decide) (by decide) (by decide) hmany⟩

/-- Counterexample to C5 as stated. A knife carries `CUT` at level 2, the
requirement set has the quality group of `CUT` 2 alone and the component group
of one knife alone, and the inventory holds exactly one knife, the only item
with `CUT` at level 2 or more. An earlier quality group offers `CUT` 5 or
`PRY` 1 and is satisfied by a crowbar: the reconciliation looks up `CUT` 5,
skips it, and `can_make_with_inventory` returns `true`. -/
theorem quality_contention_fails_behind_earlier_group :
    (("CUT", 2) : String × Int) ∈
        (carrying_game plain_player "knife" "CUT" 2).item_qualities "knife" ∧
      [({ type := "CUT", level := 2, available := a_false } : quality_requirement)] ∈
        cut_and_pry_example.qualities ∧
      [one_of "knife" a_false] ∈ cut_and_pry_example.components ∧
      (one_of "knife" a_false).type = "knife" ∧ (one_of "knife" a_false).count = 1 ∧
      knife_and_crowbar_inventory.has_components "knife" 1 = true ∧
      (∀ n : Int, 2 ≤ n → knife_and_crowbar_inventory.has_tools "knife" n = false ∧
        knife_and_crowbar_inventory.has_charges "knife" n = false ∧
        knife_and_crowbar_inventory.has_components "knife" n = false) ∧
      knife_and_crowbar_inventory.has_items_with_quality "CUT" 2 1 = true ∧
      (∀ n : Int, 2 ≤ n →
        knife_and_crowbar_inventory.has_items_with_quality "CUT" 2 n = false) ∧
      find_by_type cut_and_pry_example.qualities "CUT" =
        some { type := "CUT", level := 5, available := a_false } ∧
      (can_make_with_inventory cut_and_pry_example
        (carrying_game plain_player "knife" "CUT" 2) knife_and_crowbar_inventory 1).1 = true := by
  refine ⟨by decide, by decide, by decide, rfl, rfl, by decide, ?_, by decide, ?_, by decide,
    by decide⟩
  · intro n hn
    have h : ¬ n ≤ 1 := by omega
    simp [knife_and_crowbar_inventory, h]
  · intro n hn
    have h : ¬ n ≤ 1 := by omega
    simp [knife_and_crowbar_inventory, h]

/-! ## Re-evaluation -/

theorem has_mark {T : Type} [requirement T] [lawful_requirement T] (g : game)
    (inv : inventory) (b1 b : Int) (t : T) :
    requirement.has (mark g inv b1 t) g inv b = requirement.has t g inv b := by
  unfold mark
  split_ifs <;> exact lawful_requirement.has_set _ _ _ _ _

theorem mark_set_available {T : Type} [requirement T] [lawful_requirement T] (g : game)
    (inv : inventory) (b : Int) (t : T) (a : available_status) :
    mark g inv b (requirement.set_available t a) = mark g inv b t := by
  unfold mark
  rw [lawful_requirement.has_set, lawful_requirement.set_set, lawful_requirement.set_set]

theorem mark_mark {T : Type} [requirement T] [lawful_requirement T] (g : game)
    (inv : inventory) (b1 b : Int) (t : T) :
    mark g inv b (mark g inv b1 t) = mark g inv b t := by
  have h : mark g inv b1 t = requirement.set_available t
      (if requirement.has t g inv b1 = true then a_true else a_false) := by
    unfold mark
    split_ifs <;> rfl
  rw [h, mark_set_available]

theorem has_comps_map_congr {T : Type} [requirement T] [lawful_requirement T] (g : game)
    (inv : inventory) (b : Int) (f : T → T) (vec : List (List T))
    (hf : ∀ t, mark g inv b (f t) = mark g inv b t)
    (hh : ∀ t, requirement.has (f t) g inv b = requirement.has t g inv b) :
    has_comps g inv (vec.map (List.map f)) b = has_comps g inv vec b := by
  apply Prod.ext
  · rw [has_comps_fst, has_comps_fst]
    simp only [List.all_map, List.any_map, Function.comp_def, hh]
  · rw [has_comps_snd, has_comps_snd]
    simp only [List.map_map, Function.comp_def, hf]

theorem check_enough_materials_comp_frame (R : requirement_data) (g : game)
    (comp : item_requirement) (inv : inventory) (b : Int) :
    (check_enough_materials_comp R g comp inv b).2 =
      requirement.set_available comp (check_enough_materials_comp R g comp inv b).2.available := by
  unfold check_enough_materials_comp
  by_cases h : comp.available = a_true
  · simp only [h, ne_eq, not_true_eq_false, if_false]
    rw [check_quality_overlap_frame, check_tool_overlap_frame]
    rfl
  · simp only [h, ne_eq, not_false_eq_true, if_true]
    rfl

theorem can_make_with_inventory_congr (R1 R : requirement_data) (g : game) (inv : inventory)
    (b : Int) (hq : has_comps g inv R1.qualities 1 = has_comps g inv R.qualities 1)
    (ht : has_comps g inv R1.tools b = has_comps g inv R.tools b)
    (hc : has_comps g inv R1.components b = has_comps g inv R.components b)
    (hs : R1.skills = R.skills) :
    can_make_with_inventory R1 g inv b = can_make_with_inventory R g inv b := by
  have hr : resolved R1 g inv b = resolved R g inv b := by
    unfold resolved
    rw [hq, ht, hc, hs]
  apply Prod.ext
  · rw [can_make_with_inventory_fst, can_make_with_inventory_fst, hq, ht, hc, hr]
  · rw [can_make_with_inventory_snd, can_make_with_inventory_snd, hr]

/-- C6. Calling `can_make_with_inventory` a second time, on the annotations
left by the first call and with the same game state, inventory and batch,
returns the same verdict and leaves the same requirement set (hence the same
annotation on every tool, quality and component). -/
theorem can_make_with_inventory_idempotent (R : requirement_data) (g : game)
    (crafting_inv : inventory) (batch : Int) :
    can_make_with_inventory (can_make_with_inventory R g crafting_inv batch).2 g crafting_inv
        batch =
      can_make_with_inventory R g crafting_inv batch := by
  have hr : (can_make_with_inventory R g crafting_inv batch).2 =
      { resolved R g crafting_inv batch with
        components := (R.components.map (List.map (mark g crafting_inv batch))).map
          (List.map (fun c => (check_enough_materials_comp (resolved R g crafting_inv batch) g c
            crafting_inv batch).2)) } := by
    rw [can_make_with_inventory_snd, check_enough_materials_snd]
    have h : (resolved R g crafting_inv batch).components =
        R.components.map (List.map (mark g crafting_inv batch)) :=
      has_comps_snd g crafting_inv batch R.components
    rw [h]
  apply can_make_with_inventory_congr
  · rw [hr]
    show has_comps g crafting_inv (has_comps g crafting_inv R.qualities 1).2 1 = _
    rw [has_comps_snd]
    exact has_comps_map_congr g crafting_inv 1 _ _ (mark_mark g crafting_inv 1 1)
      (has_mark g crafting_inv 1 1)
  · rw [hr]
    show has_comps g crafting_inv (has_comps g crafting_inv R.tools batch).2 batch = _
    rw [has_comps_snd]
    exact has_comps_map_congr g crafting_inv batch _ _ (mark_mark g crafting_inv batch batch)
      (has_mark g crafting_inv batch batch)
  · rw [hr]
    have key : ∀ (F M : item_requirement → item_requirement)
        (C : List (List item_requirement)),
        List.map (List.map F) (List.map (List.map M) C) = List.map (List.map (F ∘ M)) C := by
      intro F M C
      simp [List.map_map]
    show has_comps g crafting_inv (List.map _ (List.map _ R.components)) batch = _
    rw [key]
    apply has_comps_map_congr
    · intro t
      simp only [Function.comp_apply]
      rw [check_enough_materials_comp_frame, mark_set_available, mark_mark]
    · intro t
      simp only [Function.comp_apply]
      rw [check_enough_materials_comp_frame, lawful_requirement.has_set, has_mark]
  · rw [hr]
    rfl

/-! ## `remove_item`, characterised -/

section removal
variable {T : Type} [requirement T]

theorem remove_item_elem_fst (type : String) (rest kept : List T) :
    (remove_item_elem type kept rest).1 = true ↔
      kept = [] ∧ rest ≠ [] ∧ ∀ a ∈ rest, requirement.type a = type := by
  induction rest generalizing kept with
  | nil => simp [remove_item_elem]
  | cons c rest ih =>
    unfold remove_item_elem
    by_cases hc : requirement.type c = type
    · by_cases hsize : kept.length + (c :: rest).length = 1
      · have hk : kept = [] := by
          apply List.eq_nil_of_length_eq_zero
          simp only [List.length_cons] at hsize
          omega
        have hr : rest = [] := by
          apply List.eq_nil_of_length_eq_zero
          simp only [List.length_cons] at hsize
          omega
        simp [hc, hsize, hk, hr]
      · simp only [hc, hsize, if_true, if_false, ih]
        constructor
        · rintro ⟨hk, _, hall⟩
          refine ⟨hk, List.cons_ne_nil _ _, ?_⟩
          intro a ha
          rcases List.mem_cons.mp ha with h | h
          · rw [h]; exact hc
          · exact hall a h
        · rintro ⟨hk, _, hall⟩
          refine ⟨hk, ?_, fun a ha => hall a (List.mem_cons_of_mem _ ha)⟩
          intro hr
          apply hsize
          simp [hk, hr]
    · simp only [hc, if_false, ih]
      constructor
      · rintro ⟨hk, _⟩
        simp at hk
      · rintro ⟨_, _, hall⟩
        exact absurd (hall c (List.mem_cons_self _ _)) hc

theorem remove_item_elem_snd (type : String) (rest kept : List T)
    (h : (remove_item_elem type kept rest).1 = false) :
    (remove_item_elem type kept rest).2 =
      kept ++ rest.filter (fun a => !decide (requirement.type a = type)) := by
  induction rest generalizing kept with
  | nil => simp [remove_item_elem]
  | cons c rest ih =>
    unfold remove_item_elem at h ⊢
    by_cases hc : requirement.type c = type
    · by_cases hsize : kept.length + (c :: rest).length = 1
      · rw [if_pos hc, if_pos hsize] at h
        simp at h
      · simp only [hc, hsize, if_true, if_false] at h ⊢
        rw [ih kept h]
        simp [List.filter_cons, hc]
    · simp only [hc, if_false] at h ⊢
      rw [ih (kept ++ [c]) h]
      simp [List.filter_cons, hc]

theorem remove_item_vec_fst (type : String) (vec : List (List T)) :
    (remove_item_vec type vec).1 = true ↔
      ∃ s ∈ vec, s ≠ [] ∧ ∀ a ∈ s, requirement.type a = type := by
  induction vec with
  | nil => simp [remove_item_vec]
  | cons elem rest ih =>
    unfold remove_item_vec
    have he := remove_item_elem_fst type elem ([] : List T)
    by_cases h : (remove_item_elem type [] elem).1 = true
    · simp only [h, if_true, true_iff]
      exact ⟨elem, List.mem_cons_self _ _, (he.mp h).2⟩
    · simp only [h, if_false, ih, List.mem_cons, Bool.false_eq_true]
      constructor
      · rintro ⟨s, hs, hne, hall⟩
        exact ⟨s, Or.inr hs, hne, hall⟩
      · rintro ⟨s, hs | hs, hne, hall⟩
        · subst hs
          exact absurd (he.mpr ⟨rfl, hne, hall⟩) h
        · exact ⟨s, hs, hne, hall⟩

theorem remove_item_vec_snd (type : String) (vec : List (List T))
    (h : (remove_item_vec type vec).1 = false) :
    (remove_item_vec type vec).2 =
      vec.map (List.filter (fun a => !decide (requirement.type a = type))) := by
  induction vec with
  | nil => rfl
  | cons elem rest ih =>
    unfold remove_item_vec at h ⊢
    by_cases he : (remove_item_elem type [] elem).1 = true
    · simp [he] at h
    · simp only [he, if_false, Bool.false_eq_true] at h ⊢
      rw [ih h, remove_item_elem_snd type elem [] (by simpa using he)]
      simp

end removal

theorem remove_item_fst (R : requirement_data) (type : String) :
    (remove_item R type).1 =
      ((remove_item_vec type R.tools).1 || (remove_item_vec type R.components).1) := by
  unfold remove_item
  cases h : (remove_item_vec type R.tools).1 <;> simp [h]

/-- C8. `remove_item( type )` returns `true` exactly when some group of tools
or some group of components is non-empty and consists only of alternatives of
the given type. -/
theorem remove_item_true_iff (R : requirement_data) (type : String) :
    (remove_item R type).1 = true ↔
      ((∃ s ∈ R.tools, s ≠ [] ∧ ∀ a ∈ s, a.type = type) ∨
        (∃ s ∈ R.components, s ≠ [] ∧ ∀ a ∈ s, a.type = type)) := by
  rw [remove_item_fst, Bool.or_eq_true]
  exact or_congr (remove_item_vec_fst type R.tools) (remove_item_vec_fst type R.components)

/-- C9. When `remove_item( type )` returns `false`, every group of tools and
of components is its original with the alternatives of the given type filtered
out, no alternative of the given type is left, and every group that was
non-empty is still non-empty. -/
theorem remove_item_false_filters (R : requirement_data) (type : String)
    (h : (remove_item R type).1 = false) :
    (remove_item R type).2.tools =
        R.tools.map (List.filter (fun a => !decide (a.type = type))) ∧
      (remove_item R type).2.components =
        R.components.map (List.filter (fun a => !decide (a.type = type))) ∧
      (∀ s ∈ (remove_item R type).2.tools ++ (remove_item R type).2.components,
        ∀ a ∈ s, a.type ≠ type) ∧
      (∀ s ∈ R.tools ++ R.components, s ≠ [] →
        s.filter (fun a => !decide (a.type = type)) ≠ []) := by
  have h0 := h
  rw [remove_item_fst, Bool.or_eq_false_iff] at h0
  have ht : (remove_item R type).2.tools =
      R.tools.map (List.filter (fun a => !decide (a.type = type))) := by
    unfold remove_item
    simp only [h0.1, Bool.false_eq_true, if_false]
    exact remove_item_vec_snd type R.tools h0.1
  have hc : (remove_item R type).2.components =
      R.components.map (List.filter (fun a => !decide (a.type = type))) := by
    unfold remove_item
    simp only [h0.1, Bool.false_eq_true, if_false]
    exact remove_item_vec_snd type R.components h0.2
  refine ⟨ht, hc, ?_, ?_⟩
  · rw [ht, hc]
    intro s hs a ha
    rw [← List.map_append] at hs
    obtain ⟨s0, _, rfl⟩ := List.mem_map.mp hs
    have := (List.mem_filter.mp ha).2
    simpa using this
  · intro s hs hne hfil
    have hall : ∀ a ∈ s, a.type = type := by
      intro a ha
      by_contra hna
      have : a ∈ s.filter (fun a => !decide (a.type = type)) :=
        List.mem_filter.mpr ⟨ha, by simpa using hna⟩
      rw [hfil] at this
      cases this
    have htrue : (remove_item R type).1 = true := by
      rw [remove_item_fst, Bool.or_eq_true]
      rcases List.mem_append.mp hs with hs | hs
      · exact Or.inl ((remove_item_vec_fst type R.tools).mpr ⟨s, hs, hne, hall⟩)
      · exact Or.inr ((remove_item_vec_fst type R.components).mpr ⟨s, hs, hne, hall⟩)
    rw [h] at htrue
    cases htrue

/-- Witness for C9: removing the welder from `removal_example`. -/
theorem remove_item_false_filters_witness :
    (remove_item removal_example "welder").1 = false ∧
      ((remove_item removal_example "welder").2.tools =
          removal_example.tools.map (List.filter (fun a => !decide (a.type = "welder"))) ∧
        (remove_item removal_example "welder").2.components =
          removal_example.components.map
            (List.filter (fun a => !decide (a.type = "welder"))) ∧
        (∀ s ∈ (remove_item removal_example "welder").2.tools ++
            (remove_item removal_example "welder").2.components,
          ∀ a ∈ s, a.type ≠ "welder") ∧
        (∀ s ∈ removal_example.tools ++ removal_example.components, s ≠ [] →
          s.filter (fun a => !decide (a.type = "welder")) ≠ [])) :=
  ⟨by decide, remove_item_false_filters removal_example "welder" (by decide)⟩

/-! ## Skill gate and success rate -/

theorem meets_skill_requirements_loop_iff (p : player) (l : List (String × skill_requirement)) :
    meets_skill_requirements_loop p l = true ↔
      ∀ e ∈ l, e.2.minimum ≤ p.get_skill_level e.2.skill := by
  induction l with
  | nil => simp [meets_skill_requirements_loop]
  | cons e rest ih =>
    unfold meets_skill_requirements_loop
    by_cases h : e.2.minimum ≤ p.get_skill_level e.2.skill
    · simp [skill_requirement.meets_minimum, h, ih]
    · simp [skill_requirement.meets_minimum, h]

/-- C7. `meets_skill_requirements` is `true` exactly when the player's current
skill level is at least the minimum of every entry of the skills map; it is
`false` exactly when some entry's minimum is above the player's level; and it
is `true` for an empty skills map. No success rate enters the result. -/
theorem meets_skill_requirements_iff (R : requirement_data) (_player : player) :
    (meets_skill_requirements R _player = true ↔
        ∀ e ∈ R.skills, e.2.minimum ≤ _player.get_skill_level e.2.skill) ∧
      (meets_skill_requirements R _player = false ↔
        ∃ e ∈ R.skills, _player.get_skill_level e.2.skill < e.2.minimum) ∧
      meets_skill_requirements { R with skills := [] } _player = true := by
  have h := meets_skill_requirements_loop_iff _player R.skills
  refine ⟨h, ?_, rfl⟩
  rw [← Bool.not_eq_true]
  unfold meets_skill_requirements
  rw [h]
  push_neg
  rfl

/-- C10 fails on the code. The player's fabrication level 2 is below the
minimum 3 of the only skill requirement, and `success_rate` is
`1 - (1/2)^(1/2)`, which is positive, not `0.0`. -/
theorem success_rate_positive_below_minimum :
    meets_skill_requirements fabrication_only novice_player = false ∧
      success_rate fabrication_only novice_player 0 = 1 - (1 / 2 : ℝ) ^ (1 / 2 : ℝ) ∧
      0 < success_rate fabrication_only novice_player 0 := by
  have hm : meets_skill_requirements fabrication_only novice_player = false := by
    simp [meets_skill_requirements, meets_skill_requirements_loop, fabrication_only,
      fabrication_3, novice_player, skill_requirement.meets_minimum]
  have hs : success_rate fabrication_only novice_player 0 = 1 - (1 / 2 : ℝ) ^ (1 / 2 : ℝ) := by
    simp [success_rate, success_rate_loop, skill_requirement.success_rate, fabrication_only,
      fabrication_3, novice_player, plain_player]
    norm_num
  refine ⟨hm, hs, ?_⟩
  rw [hs]
  have : (1 / 2 : ℝ) ^ (1 / 2 : ℝ) < 1 :=
    Real.rpow_lt_one (by norm_num) (by norm_num) (by norm_num)
  linarith

/-! ## Success rate -/

/-- C11. A skill requirement of difficulty 0 has success rate exactly 1, for
every player, every difficulty modifier, every base success and stat factor. -/
theorem skill_success_rate_of_difficulty_zero (r : skill_requirement) (_player : player)
    (difficulty_modifier : ℝ) (h : r.difficulty = 0) :
    r.success_rate _player difficulty_modifier = 1 := by
  unfold skill_requirement.success_rate
  rw [if_pos h]

/-- Witness for C11: a requirement of difficulty 0 and a player below its
minimum. -/
theorem skill_success_rate_of_difficulty_zero_witness :
    trivial_requirement.difficulty = 0 ∧
      trivial_requirement.success_rate plain_player 3 = 1 :=
  ⟨rfl, skill_success_rate_of_difficulty_zero trivial_requirement plain_player 3 rfl⟩

/-- C12. With an empty skills map `success_rate` is exactly 1: the loop body,
and with it the exponent `1 / n`, is never evaluated. -/
theorem success_rate_of_no_skills (R : requirement_data) (_player : player)
    (difficulty_modifier : ℝ) (h : R.skills = []) :
    success_rate R _player difficulty_modifier = 1 := by
  unfold success_rate
  rw [h]
  rfl

/-- Witness for C12: a requirement set without skills. -/
theorem success_rate_of_no_skills_witness :
    (tool_and_component "welder" a_false).skills = [] ∧
      success_rate (tool_and_component "welder" a_false) plain_player 0 = 1 :=
  ⟨rfl, success_rate_of_no_skills (tool_and_component "welder" a_false) plain_player 0 rfl⟩

theorem success_rate_loop_eq (n : Nat) (p : player) (d : ℝ)
    (l : List (String × skill_requirement)) (acc : ℝ) :
    success_rate_loop n p d l acc =
      acc * (l.map (fun e => (e.2.success_rate p d) ^ (1 / (n : ℝ)))).prod := by
  induction l generalizing acc with
  | nil => simp [success_rate_loop]
  | cons e rest ih =>
    simp only [success_rate_loop, ih, List.map_cons, List.prod_cons, Real.rpow_eq_pow]
    ring

theorem skill_success_rate_eq (r : skill_requirement) (p : player) (d : ℝ)
    (h : r.difficulty ≠ 0) :
    r.success_rate p d =
      1 - (1 - r.base_success) ^
        ((2 : ℝ) ^ (p.get_adjusted_skill_level r.skill - (r.difficulty : ℝ) - d +
          ((p.int_cur - 8 : Int) : ℝ) * r.stat_factor)) := by
  unfold skill_requirement.success_rate
  rw [if_neg h]
  simp only [Real.rpow_eq_pow]

theorem skill_success_rate_bounds (r : skill_requirement) (p : player) (d : ℝ)
    (h0 : 0 ≤ r.base_success) (h1 : r.base_success ≤ 1) :
    0 ≤ r.success_rate p d ∧ r.success_rate p d ≤ 1 := by
  by_cases h : r.difficulty = 0
  · unfold skill_requirement.success_rate
    rw [if_pos h]
    exact ⟨zero_le_one, le_refl 1⟩
  · rw [skill_success_rate_eq r p d h]
    have hx0 : (0 : ℝ) ≤ 1 - r.base_success := by linarith
    have hx1 : 1 - r.base_success ≤ 1 := by linarith
    have he : (0 : ℝ) ≤ (2 : ℝ) ^ (p.get_adjusted_skill_level r.skill - (r.difficulty : ℝ) - d +
        ((p.int_cur - 8 : Int) : ℝ) * r.stat_factor) :=
      Real.rpow_nonneg (by norm_num) _
    have hp0 := Real.rpow_nonneg hx0 ((2 : ℝ) ^ (p.get_adjusted_skill_level r.skill -
      (r.difficulty : ℝ) - d + ((p.int_cur - 8 : Int) : ℝ) * r.stat_factor))
    have hp1 := Real.rpow_le_one hx0 hx1 he
    constructor <;> linarith

theorem skill_success_rate_mono (r : skill_requirement) (p q : player) (d : ℝ)
    (h0 : 0 ≤ r.base_success) (h1 : r.base_success ≤ 1)
    (hlevel : p.get_adjusted_skill_level r.skill ≤ q.get_adjusted_skill_level r.skill)
    (hstat : q.int_cur = p.int_cur) :
    r.success_rate p d ≤ r.success_rate q d := by
  by_cases h : r.difficulty = 0
  · unfold skill_requirement.success_rate
    rw [if_pos h, if_pos h]
  · rw [skill_success_rate_eq r p d h, skill_success_rate_eq r q d h, hstat]
    have hx0 : (0 : ℝ) ≤ 1 - r.base_success := by linarith
    have hx1 : 1 - r.base_success ≤ 1 := by linarith
    have hexp : (2 : ℝ) ^ (p.get_adjusted_skill_level r.skill - (r.difficulty : ℝ) - d +
          ((p.int_cur - 8 : Int) : ℝ) * r.stat_factor) ≤
        (2 : ℝ) ^ (q.get_adjusted_skill_level r.skill - (r.difficulty : ℝ) - d +
          ((p.int_cur - 8 : Int) : ℝ) * r.stat_factor) :=
      Real.rpow_le_rpow_of_exponent_le (by norm_num) (by linarith)
    have hpos : (0 : ℝ) < (2 : ℝ) ^ (p.get_adjusted_skill_level r.skill - (r.difficulty : ℝ) - d +
          ((p.int_cur - 8 : Int) : ℝ) * r.stat_factor) :=
      Real.rpow_pos_of_pos (by norm_num) _
    have hpow : (1 - r.base_success) ^
          ((2 : ℝ) ^ (q.get_adjusted_skill_level r.skill - (r.difficulty : ℝ) - d +
            ((p.int_cur - 8 : Int) : ℝ) * r.stat_factor)) ≤
        (1 - r.base_success) ^
          ((2 : ℝ) ^ (p.get_adjusted_skill_level r.skill - (r.difficulty : ℝ) - d +
            ((p.int_cur - 8 : Int) : ℝ) * r.stat_factor)) := by
      rcases eq_or_lt_of_le hx0 with hz | hz
      · rw [← hz, Real.zero_rpow (ne_of_gt hpos),
          Real.zero_rpow (ne_of_gt (lt_of_lt_of_le hpos hexp))]
      · exact Real.rpow_le_rpow_of_exponent_ge hz hx1 hexp
    linarith

theorem success_rate_loop_bounds (n : Nat) (p : player) (d : ℝ)
    (l : List (String × skill_requirement)) (acc : ℝ)
    (hbase : ∀ e ∈ l, 0 ≤ e.2.base_success ∧ e.2.base_success ≤ 1)
    (hacc0 : 0 ≤ acc) (hacc1 : acc ≤ 1) :
    0 ≤ success_rate_loop n p d l acc ∧ success_rate_loop n p d l acc ≤ 1 := by
  induction l generalizing acc with
  | nil => exact ⟨hacc0, hacc1⟩
  | cons e rest ih =>
    unfold success_rate_loop
    have hb := hbase e (List.mem_cons_self _ _)
    have hr := skill_success_rate_bounds e.2 p d hb.1 hb.2
    have hn : (0 : ℝ) ≤ 1 / (n : ℝ) := by positivity
    have hf0 : 0 ≤ (e.2.success_rate p d) ^ (1 / (n : ℝ)) := Real.rpow_nonneg hr.1 _
    have hf1 : (e.2.success_rate p d) ^ (1 / (n : ℝ)) ≤ 1 := Real.rpow_le_one hr.1 hr.2 hn
    apply ih
    · intro e1 he1
      exact hbase e1 (List.mem_cons_of_mem _ he1)
    · exact mul_nonneg hacc0 hf0
    · exact mul_le_one₀ hacc1 hf0 hf1

theorem success_rate_loop_mono (n : Nat) (p q : player) (d : ℝ)
    (l : List (String × skill_requirement)) (acc acc1 : ℝ)
    (hbase : ∀ e ∈ l, 0 ≤ e.2.base_success ∧ e.2.base_success ≤ 1)
    (hlevel : ∀ e ∈ l,
      p.get_adjusted_skill_level e.2.skill ≤ q.get_adjusted_skill_level e.2.skill)
    (hstat : q.int_cur = p.int_cur) (hacc0 : 0 ≤ acc) (hacc : acc ≤ acc1) :
    success_rate_loop n p d l acc ≤ success_rate_loop n q d l acc1 := by
  induction l generalizing acc acc1 with
  | nil => exact hacc
  | cons e rest ih =>
    unfold success_rate_loop
    have hb := hbase e (List.mem_cons_self _ _)
    have hr := skill_success_rate_bounds e.2 p d hb.1 hb.2
    have hm := skill_success_rate_mono e.2 p q d hb.1 hb.2 (hlevel e (List.mem_cons_self _ _))
      hstat
    have hn : (0 : ℝ) ≤ 1 / (n : ℝ) := by positivity
    have hf0 : 0 ≤ (e.2.success_rate p d) ^ (1 / (n : ℝ)) := Real.rpow_nonneg hr.1 _
    have hf : (e.2.success_rate p d) ^ (1 / (n : ℝ)) ≤ (e.2.success_rate q d) ^ (1 / (n : ℝ)) :=
      Real.rpow_le_rpow hr.1 hm hn
    apply ih
    · intro e1 he1
      exact hbase e1 (List.mem_cons_of_mem _ he1)
    · intro e1 he1
      exact hlevel e1 (List.mem_cons_of_mem _ he1)
    · exact mul_nonneg hacc0 hf0
    · exact mul_le_mul hacc hf hf0 (le_trans hacc0 hacc)

theorem prod_map_const_rate (p : player) (d x r : ℝ) (l : List (String × skill_requirement))
    (hall : ∀ e ∈ l, e.2.success_rate p d = r) :
    (l.map (fun e => (e.2.success_rate p d) ^ x)).prod = (r ^ x) ^ l.length := by
  induction l with
  | nil => simp
  | cons e rest ih =>
    rw [List.map_cons, List.prod_cons, hall e (List.mem_cons_self _ _),
      ih (fun e1 he1 => hall e1 (List.mem_cons_of_mem _ he1)), List.length_cons, pow_succ]
    ring

/-- C13. When the skills map has n >= 1 entries and every individual success
rate equals `r` with `0 <= r`, the compound `success_rate` is `r`; with two
entries this is `r^(1/2) * r^(1/2) = r`. -/
theorem success_rate_of_equal_rates (R : requirement_data) (_player : player)
    (difficulty_modifier r : ℝ) (hne : R.skills ≠ []) (hr : 0 ≤ r)
    (hall : ∀ e ∈ R.skills, e.2.success_rate _player difficulty_modifier = r) :
    success_rate R _player difficulty_modifier = r := by
  unfold success_rate
  rw [success_rate_loop_eq, prod_map_const_rate _player difficulty_modifier _ r R.skills hall,
    one_mul, ← Real.rpow_natCast, ← Real.rpow_mul hr]
  have hn : (R.skills.length : ℝ) ≠ 0 := by
    have : R.skills.length ≠ 0 := fun h => hne (List.eq_nil_of_length_eq_zero h)
    exact_mod_cast this
  rw [one_div, inv_mul_cancel₀ hn, Real.rpow_one]

/-- C16. For a skill requirement of difficulty 3 and base success 0.5 (with
any minimum and stat factor, in particular minimum 2 and stat factor 0.125), a
player of adjusted level 3 and intelligence 8, and difficulty modifier 0: the
relative difficulty is 0, the stat bonus is 0, the exponent is 1, the skill's
success rate is 0.5, and so is the success rate of the requirement set that has
this requirement alone. -/
theorem example_calculation (r : skill_requirement) (_player : player) (key : String)
    (hdiff : r.difficulty = 3) (hbase : r.base_success = 1 / 2)
    (hlevel : _player.get_adjusted_skill_level r.skill = 3)
    (hint : _player.int_cur = 8) :
    _player.get_adjusted_skill_level r.skill - (r.difficulty : ℝ) = 0 ∧
      ((_player.int_cur - 8 : Int) : ℝ) * r.stat_factor = 0 ∧
      Real.rpow 2 (_player.get_adjusted_skill_level r.skill - (r.difficulty : ℝ) - 0 +
        ((_player.int_cur - 8 : Int) : ℝ) * r.stat_factor) = 1 ∧
      r.success_rate _player 0 = 1 / 2 ∧
      success_rate (skills_only [(key, r)]) _player 0 = 1 / 2 := by
  have hrel : _player.get_adjusted_skill_level r.skill - (r.difficulty : ℝ) = 0 := by
    rw [hlevel, hdiff]; norm_num
  have hbonus : ((_player.int_cur - 8 : Int) : ℝ) * r.stat_factor = 0 := by
    rw [hint]; norm_num
  have hexp : Real.rpow 2 (_player.get_adjusted_skill_level r.skill - (r.difficulty : ℝ) - 0 +
      ((_player.int_cur - 8 : Int) : ℝ) * r.stat_factor) = 1 := by
    rw [hrel, hbonus]; simp
  have hrate : r.success_rate _player 0 = 1 / 2 := by
    have hd : r.difficulty ≠ 0 := by rw [hdiff]; decide
    rw [skill_success_rate_eq r _player 0 hd]
    rw [Real.rpow_eq_pow] at hexp
    rw [hexp, hbase, Real.rpow_one]
    norm_num
  refine ⟨hrel, hbonus, hexp, hrate, ?_⟩
  unfold success_rate skills_only
  simp only [success_rate_loop, List.length_singleton, hrate, Real.rpow_eq_pow]
  norm_num

/-- Witness for C16: the requirement `fabrication_2_3` and a player whose
level in every skill is 3. -/
theorem example_calculation_witness :
    fabrication_2_3.difficulty = 3 ∧ fabrication_2_3.minimum = 2 ∧
      fabrication_2_3.base_success = 1 / 2 ∧ fabrication_2_3.stat_factor = 1 / 8 ∧
      journeyman_player.get_adjusted_skill_level fabrication_2_3.skill = 3 ∧
      journeyman_player.int_cur = 8 ∧
      (journeyman_player.get_adjusted_skill_level fabrication_2_3.skill -
          (fabrication_2_3.difficulty : ℝ) = 0 ∧
        ((journeyman_player.int_cur - 8 : Int) : ℝ) * fabrication_2_3.stat_factor = 0 ∧
        Real.rpow 2 (journeyman_player.get_adjusted_skill_level fabrication_2_3.skill -
          (fabrication_2_3.difficulty : ℝ) - 0 +
          ((journeyman_player.int_cur - 8 : Int) : ℝ) * fabrication_2_3.stat_factor) = 1 ∧
        fabrication_2_3.success_rate journeyman_player 0 = 1 / 2 ∧
        success_rate (skills_only [("fabrication", fabrication_2_3)]) journeyman_player 0 =
          1 / 2) :=
  ⟨rfl, rfl, rfl, rfl, rfl, rfl,
    example_calculation fabrication_2_3 journeyman_player "fabrication" rfl rfl rfl rfl⟩

/-- Witness for C13: two skill requirements of individual rate 1/2. -/
theorem success_rate_of_equal_rates_witness :
    (skills_only [("fabrication", fabrication_2_3), ("tailor", tailor_2_3)]).skills ≠ [] ∧
      (0 : ℝ) ≤ 1 / 2 ∧
      (∀ e ∈ (skills_only [("fabrication", fabrication_2_3), ("tailor", tailor_2_3)]).skills,
        e.2.success_rate journeyman_player 0 = 1 / 2) ∧
      success_rate (skills_only [("fabrication", fabrication_2_3), ("tailor", tailor_2_3)])
        journeyman_player 0 = 1 / 2 :=
  have hall : ∀ e ∈ (skills_only [("fabrication", fabrication_2_3),
      ("tailor", tailor_2_3)]).skills, e.2.success_rate journeyman_player 0 = 1 / 2 := by
    intro e he
    simp only [skills_only, List.mem_cons, List.mem_singleton, List.not_mem_nil, or_false] at he
    rcases he with rfl | rfl
    · simp [skill_requirement.success_rate, fabrication_2_3, journeyman_player, plain_player]
    · simp [skill_requirement.success_rate, tailor_2_3, journeyman_player, plain_player]
  ⟨by simp [skills_only], by norm_num, hall,
    success_rate_of_equal_rates
      (skills_only [("fabrication", fabrication_2_3), ("tailor", tailor_2_3)])
      journeyman_player 0 (1 / 2) (by simp [skills_only]) (by norm_num) hall⟩

/-- C14. When every base success probability lies in [0,1], raising the
player's adjusted level in one skill `s`, with the adjusted level of every
other skill and the intelligence unchanged, does not decrease `success_rate`,
for every difficulty modifier. -/
theorem success_rate_monotone_in_level (R : requirement_data) (_player raised : player)
    (difficulty_modifier : ℝ) (s : String)
    (hbase : ∀ e ∈ R.skills, 0 ≤ e.2.base_success ∧ e.2.base_success ≤ 1)
    (hraise : _player.get_adjusted_skill_level s ≤ raised.get_adjusted_skill_level s)
    (hothers : ∀ s1, s1 ≠ s →
      raised.get_adjusted_skill_level s1 = _player.get_adjusted_skill_level s1)
    (hstat : raised.int_cur = _player.int_cur) :
    success_rate R _player difficulty_modifier ≤ success_rate R raised difficulty_modifier := by
  unfold success_rate
  apply success_rate_loop_mono _ _ _ _ _ _ _ hbase _ hstat zero_le_one (le_refl 1)
  intro e _
  by_cases h : e.2.skill = s
  · rw [h]; exact hraise
  · rw [hothers e.2.skill h]

/-- Witness for C14: fabrication raised from 2 to 3 for the requirement set
`fabrication_only`. -/
theorem success_rate_monotone_in_level_witness :
    (∀ e ∈ fabrication_only.skills, 0 ≤ e.2.base_success ∧ e.2.base_success ≤ 1) ∧
      novice_player.get_adjusted_skill_level "fabrication" ≤
        fabrication_trained_player.get_adjusted_skill_level "fabrication" ∧
      (∀ s1, s1 ≠ "fabrication" → fabrication_trained_player.get_adjusted_skill_level s1 =
        novice_player.get_adjusted_skill_level s1) ∧
      fabrication_trained_player.int_cur = novice_player.int_cur ∧
      success_rate fabrication_only novice_player 0 ≤
        success_rate fabrication_only fabrication_trained_player 0 :=
  have hbase : ∀ e ∈ fabrication_only.skills, 0 ≤ e.2.base_success ∧ e.2.base_success ≤ 1 := by
    intro e he
    simp only [fabrication_only, List.mem_singleton] at he
    rw [he]
    simp only [fabrication_3]
    constructor <;> norm_num
  have hraise : novice_player.get_adjusted_skill_level "fabrication" ≤
      fabrication_trained_player.get_adjusted_skill_level "fabrication" := by
    simp only [novice_player, fabrication_trained_player, if_true]
    norm_num
  have hothers : ∀ s1, s1 ≠ "fabrication" →
      fabrication_trained_player.get_adjusted_skill_level s1 =
        novice_player.get_adjusted_skill_level s1 := by
    intro s1 h1
    simp [novice_player, fabrication_trained_player, h1]
  ⟨hbase, hraise, hothers, rfl,
    success_rate_monotone_in_level fabrication_only novice_player fabrication_trained_player 0
      "fabrication" hbase hraise hothers rfl⟩

/-- C15. When every base success probability lies in [0,1], `success_rate`
lies in [0,1] for every player and every difficulty modifier. -/
theorem success_rate_in_unit_interval (R : requirement_data) (_player : player)
    (difficulty_modifier : ℝ)
    (hbase : ∀ e ∈ R.skills, 0 ≤ e.2.base_success ∧ e.2.base_success ≤ 1) :
    0 ≤ success_rate R _player difficulty_modifier ∧
      success_rate R _player difficulty_modifier ≤ 1 :=
  success_rate_loop_bounds R.skills.length _player difficulty_modifier R.skills 1 hbase
    zero_le_one (le_refl 1)

/-- Witness for C15: the requirement set `fabrication_only`. -/
theorem success_rate_in_unit_interval_witness :
    (∀ e ∈ fabrication_only.skills, 0 ≤ e.2.base_success ∧ e.2.base_success ≤ 1) ∧
      (0 ≤ success_rate fabrication_only novice_player 1 ∧
        success_rate fabrication_only novice_player 1 ≤ 1) :=
  have hbase : ∀ e ∈ fabrication_only.skills, 0 ≤ e.2.base_success ∧ e.2.base_success ≤ 1 := by
    intro e he
    simp only [fabrication_only, List.mem_singleton] at he
    rw [he]
    simp only [fabrication_3]
    constructor <;> norm_num
  ⟨hbase, success_rate_in_unit_interval fabrication_only novice_player 1 hbase⟩

/-! ## Empty groups -/

theorem has_comps_false_of_empty_group {T : Type} [requirement T] [lawful_requirement T]
    (g : game) (inv : inventory) (b : Int) (vec : List (List T)) (h : [] ∈ vec) :
    (has_comps g inv vec b).1 = false := by
  rw [has_comps_fst, ← Bool.not_eq_true, List.all_eq_true]
  intro hall
  have := hall [] h
  simp at this

/-- C18. If some group of tools, qualities or components has no alternatives,
`can_make_with_inventory` returns `false` for every inventory and batch; a
requirement set without any group is craftable for every inventory and batch. -/
theorem empty_group_unsatisfiable (R : requirement_data) (g : game) (crafting_inv : inventory)
    (batch : Int) (skills : List (String × skill_requirement))
    (h : [] ∈ R.tools ∨ [] ∈ R.qualities ∨ [] ∈ R.components) :
    (can_make_with_inventory R g crafting_inv batch).1 = false ∧
      (can_make_with_inventory
        { tools := [], qualities := [], components := [], skills := skills } g crafting_inv
        batch).1 = true := by
  constructor
  · rw [can_make_with_inventory_fst]
    rcases h with h | h | h
    · rw [has_comps_false_of_empty_group g crafting_inv batch R.tools h]
      simp
    · rw [has_comps_false_of_empty_group g crafting_inv 1 R.qualities h]
      simp
    · rw [has_comps_false_of_empty_group g crafting_inv batch R.components h]
      simp
  · rfl

/-- Witness for C18: a requirement set whose component group is empty, with an
inventory that holds the welder needed as tool. -/
theorem empty_group_unsatisfiable_witness :
    ([] ∈ empty_group_example.tools ∨ [] ∈ empty_group_example.qualities ∨
        [] ∈ empty_group_example.components) ∧
      ((can_make_with_inventory empty_group_example (plain_game plain_player)
          (one_unit_inventory "welder") 1).1 = false ∧
        (can_make_with_inventory
          { tools := [], qualities := [], components := [], skills := [] }
          (plain_game plain_player) (one_unit_inventory "welder") 1).1 = true) :=
  ⟨by decide,
    empty_group_unsatisfiable empty_group_example (plain_game plain_player)
      (one_unit_inventory "welder") 1 [] (by decide)⟩

/-- C20. `remove_item( type )` leaves the qualities and the skills as they
were, whatever it returns. -/
theorem remove_item_keeps_qualities_and_skills (R : requirement_data) (type : String) :
    (remove_item R type).2.qualities = R.qualities ∧
      (remove_item R type).2.skills = R.skills := by
  unfold remove_item
  by_cases h : (remove_item_vec type R.tools).1 = true
  · simp only [h, if_true, and_self]
  · simp only [h, Bool.false_eq_true, if_false, and_self]

/-! ## Missing report -/

section report
variable {T : Type}

variable [requirement T]

end report

theorem final_tools (R : requirement_data) (g : game) (inv : inventory) (b : Int) :
    (can_make_with_inventory R g inv b).2.tools = R.tools.map (List.map (mark g inv b)) := by
  rw [can_make_with_inventory_snd, check_enough_materials_snd]
  exact has_comps_snd g inv b R.tools

theorem final_qualities (R : requirement_data) (g : game) (inv : inventory) (b : Int) :
    (can_make_with_inventory R g inv b).2.qualities =
      R.qualities.map (List.map (mark g inv 1)) := by
  rw [can_make_with_inventory_snd, check_enough_materials_snd]
  exact has_comps_snd g inv 1 R.qualities

theorem final_components (R : requirement_data) (g : game) (inv : inventory) (b : Int) :
    (can_make_with_inventory R g inv b).2.components =
      R.components.map (List.map (fun c =>
        (check_enough_materials_comp (resolved R g inv b) g (mark g inv b c) inv b).2)) := by
  rw [can_make_with_inventory_snd, check_enough_materials_snd]
  show List.map _ (has_comps g inv R.components b).2 = _
  rw [has_comps_snd, List.map_map]
  congr 1
  funext l
  simp [List.map_map, Function.comp_def]

/-- C19 fails on the code. Loading the current-format declaration
`{"requirements": {"components": [ [] ]}}` into an empty requirement set
succeeds and stores one component group without alternatives, whereas the
legacy declaration `{"components": [ [] ]}` stores no group. -/
theorem load_stores_empty_group (item0 : item_requirement) :
    (requirement_data.load item0 requirement_data.default empty_group_declaration).map
        (fun R => (R.tools, R.qualities, R.components)) = some ([], [], [[]]) ∧
      (requirement_data.load item0 requirement_data.default
        legacy_empty_group_declaration).map
        (fun R => (R.tools, R.qualities, R.components)) = some ([], [], []) := by
  constructor <;> rfl

theorem load_obj_list_nonempty {T : Type} (f : json_value → Option T) (jsarr : JsonArray)
    (objs loaded : List (List T)) (h : load_obj_list f jsarr objs = some loaded)
    (hne : ∀ l ∈ objs, l ≠ []) : ∀ l ∈ loaded, l ≠ [] := by
  induction jsarr generalizing objs with
  | nil =>
    simp only [load_obj_list, Option.some.injEq] at h
    rw [← h]
    exact hne
  | cons elem rest ih =>
    have hsingle : ∀ req : T, ∀ l ∈ objs ++ [[req]], l ≠ [] := by
      intro req l hl
      rcases List.mem_append.mp hl with hl | hl
      · exact hne l hl
      · rw [List.mem_singleton.mp hl]
        exact List.cons_ne_nil _ _
    cases elem with
    | array ja =>
      simp only [load_obj_list, Option.bind_eq_bind, Option.bind_eq_some] at h
      obtain ⟨choices, _, h2⟩ := h
      by_cases hc : choices.isEmpty = true
      · simp only [hc, Bool.not_true, Bool.false_eq_true, if_false] at h2
        exact ih objs h2 hne
      · simp only [hc, Bool.not_false, if_true] at h2
        apply ih _ h2
        intro l hl
        rcases List.mem_append.mp hl with hl | hl
        · exact hne l hl
        · rw [List.mem_singleton.mp hl]
          intro hnil
          rw [hnil] at hc
          exact hc rfl
    | null =>
      simp only [load_obj_list, Option.bind_eq_bind, Option.bind_eq_some] at h
      obtain ⟨req, _, h2⟩ := h
      exact ih _ h2 (hsingle req)
    | bool b =>
      simp only [load_obj_list, Option.bind_eq_bind, Option.bind_eq_some] at h
      obtain ⟨req, _, h2⟩ := h
      exact ih _ h2 (hsingle req)
    | number x =>
      simp only [load_obj_list, Option.bind_eq_bind, Option.bind_eq_some] at h
      obtain ⟨req, _, h2⟩ := h
      exact ih _ h2 (hsingle req)
    | string x =>
      simp only [load_obj_list, Option.bind_eq_bind, Option.bind_eq_some] at h
      obtain ⟨req, _, h2⟩ := h
      exact ih _ h2 (hsingle req)
    | object x =>
      simp only [load_obj_list, Option.bind_eq_bind, Option.bind_eq_some] at h
      obtain ⟨req, _, h2⟩ := h
      exact ih _ h2 (hsingle req)

theorem load_legacy_field_nonempty {T : Type} (f : json_value → Option T) (jsobj : JsonObject)
    (field : String) (objs loaded : List (List T))
    (h : load_legacy_field f jsobj field objs = some loaded)
    (hne : ∀ l ∈ objs, l ≠ []) : ∀ l ∈ loaded, l ≠ [] := by
  unfold load_legacy_field at h
  by_cases hf : jsobj.has_array field = true
  · simp only [hf, if_true, Option.bind_eq_bind, Option.bind_eq_some] at h
    obtain ⟨jsarr, _, h2⟩ := h
    exact load_obj_list_nonempty f jsarr objs loaded h2 hne
  · simp only [hf, Bool.false_eq_true, if_false, Option.pure_def, Option.some.injEq] at h
    rw [← h]
    exact hne

theorem load_legacy_groups_nonempty (item0 : item_requirement) (R loaded : requirement_data)
    (jsobj : JsonObject) (hlegacy : jsobj.has_object "requirements" = false)
    (h : requirement_data.load item0 R jsobj = some loaded)
    (hne : (∀ l ∈ R.tools, l ≠ []) ∧ (∀ l ∈ R.qualities, l ≠ []) ∧
      (∀ l ∈ R.components, l ≠ [])) :
    (∀ l ∈ loaded.tools, l ≠ []) ∧ (∀ l ∈ loaded.qualities, l ≠ []) ∧
      (∀ l ∈ loaded.components, l ≠ []) := by
  unfold requirement_data.load at h
  rw [if_neg (by simp [hlegacy])] at h
  simp only [Option.bind_eq_bind, Option.bind_eq_some, Option.pure_def,
    Option.some.injEq] at h
  obtain ⟨components, hc, qualities, hq, tools, ht, skills, _, hR⟩ := h
  rw [← hR]
  exact ⟨load_legacy_field_nonempty _ jsobj "tools" R.tools tools ht hne.1,
    load_legacy_field_nonempty _ jsobj "qualities" R.qualities qualities hq hne.2.1,
    load_legacy_field_nonempty _ jsobj "components" R.components components hc hne.2.2⟩

/-! ## The resolver pass and the annotations it leaves -/

theorem mark_item_eq (g : game) (inv : inventory) (b : Int) (t : item_requirement) :
    mark g inv b t =
      { t with available := if t.has g inv b = true then a_true else a_false } := by
  unfold mark
  by_cases h : t.has g inv b = true
  · rw [if_pos h, if_pos (show requirement.has t g inv b = true from h)]
    rfl
  · rw [if_neg h, if_neg (show ¬ requirement.has t g inv b = true from h)]
    rfl

theorem mark_quality_eq (g : game) (inv : inventory) (b : Int) (q : quality_requirement) :
    mark g inv b q =
      { q with available := if q.has inv b = true then a_true else a_false } := by
  unfold mark
  by_cases h : q.has inv b = true
  · rw [if_pos h, if_pos (show requirement.has q g inv b = true from h)]
    rfl
  · rw [if_neg h, if_neg (show ¬ requirement.has q g inv b = true from h)]
    rfl

/-- C21. `has_comps`, for tools or components and for qualities, sets the
annotation of every alternative of every group to `a_true` when the
alternative's own `has` query holds and to `a_false` otherwise, whatever
precedes the alternative, and returns `true` exactly when every group has an
alternative whose `has` query holds. -/
theorem has_comps_resolves_every_alternative (g : game) (crafting_inv : inventory)
    (batch : Int) (items : List (List item_requirement))
    (quals : List (List quality_requirement)) :
    (has_comps g crafting_inv items batch).2 =
        items.map (List.map (fun tool =>
          { tool with
            available := if tool.has g crafting_inv batch = true then a_true else a_false })) ∧
      ((has_comps g crafting_inv items batch).1 = true ↔
        ∀ set_of_tools ∈ items, ∃ tool ∈ set_of_tools, tool.has g crafting_inv batch = true) ∧
      (has_comps g crafting_inv quals batch).2 =
        quals.map (List.map (fun tool =>
          { tool with
            available := if tool.has crafting_inv batch = true then a_true else a_false })) ∧
      ((has_comps g crafting_inv quals batch).1 = true ↔
        ∀ set_of_tools ∈ quals, ∃ tool ∈ set_of_tools, tool.has crafting_inv batch = true) := by
  refine ⟨?_, ?_, ?_, ?_⟩
  · rw [has_comps_snd]
    congr 1
    funext l
    congr 1
    funext t
    exact mark_item_eq g crafting_inv batch t
  · rw [has_comps_fst]
    simp only [List.all_eq_true, List.any_eq_true]
    rfl
  · rw [has_comps_snd]
    congr 1
    funext l
    congr 1
    funext t
    exact mark_quality_eq g crafting_inv batch t
  · rw [has_comps_fst]
    simp only [List.all_eq_true, List.any_eq_true]
    rfl

theorem reconciled_mark_eq (R1 : requirement_data) (g : game) (inv : inventory) (b : Int)
    (c : item_requirement) :
    (check_enough_materials_comp R1 g (mark g inv b c) inv b).2 =
      { c with
        available :=
          if c.has g inv b = true then
            (if (check_enough_materials_comp R1 g (mark g inv b c) inv b).1 = true then a_true
             else a_insufficent)
          else a_false } := by
  have hf := check_enough_materials_comp_frame R1 g (mark g inv b c) inv b
  have hav := check_enough_materials_comp_available R1 g (mark g inv b c) inv b
  have hfst := check_enough_materials_comp_fst R1 g (mark g inv b c) inv b
  have hm : (mark g inv b c).available =
      if c.has g inv b = true then a_true else a_false := by
    rw [mark_item_eq]
  have hval : (check_enough_materials_comp R1 g (mark g inv b c) inv b).2.available =
      if c.has g inv b = true then
        (if (check_enough_materials_comp R1 g (mark g inv b c) inv b).1 = true then a_true
         else a_insufficent)
      else a_false := by
    by_cases h : c.has g inv b = true
    · rw [if_pos h] at hm ⊢
      rcases hav with h1 | ⟨h1, _⟩
      · rw [h1, hm] at hfst ⊢
        rw [hfst]
        simp
      · rw [h1] at hfst ⊢
        rw [hfst]
        simp
    · rw [if_neg h] at hm ⊢
      rcases hav with h1 | ⟨_, h2⟩
      · rw [h1, hm]
      · rw [hm] at h2
        cases h2
  rw [hf, hval, mark_item_eq]
  rfl

/-- C22. After `can_make_with_inventory` every tool and every quality
alternative is annotated `a_true` or `a_false` according to its own `has`
query, never `a_insufficent`; every component alternative is annotated
`a_false` when its own `has` query fails and `a_true` or `a_insufficent` when
it holds. So a component is annotated `a_false` exactly when its own query
fails, and every component annotated `a_insufficent` or `a_true` passes it. -/
theorem annotations_after_can_make (R : requirement_data) (g : game)
    (crafting_inv : inventory) (batch : Int) :
    (can_make_with_inventory R g crafting_inv batch).2.tools =
        R.tools.map (List.map (fun t =>
          { t with
            available := if t.has g crafting_inv batch = true then a_true else a_false })) ∧
      (can_make_with_inventory R g crafting_inv batch).2.qualities =
        R.qualities.map (List.map (fun q =>
          { q with
            available := if q.has crafting_inv batch = true then a_true else a_false })) ∧
      (∃ keeps : item_requirement → Bool,
        (can_make_with_inventory R g crafting_inv batch).2.components =
          R.components.map (List.map (fun c =>
            { c with
              available :=
                if c.has g crafting_inv batch = true then
                  (if keeps c = true then a_true else a_insufficent)
                else a_false }))) ∧
      (∀ s ∈ (can_make_with_inventory R g crafting_inv batch).2.components, ∀ c ∈ s,
        (c.available = a_false ↔ c.has g crafting_inv batch = false) ∧
        (c.available = a_insufficent ∨ c.available = a_true →
          c.has g crafting_inv batch = true)) := by
  have hc : (can_make_with_inventory R g crafting_inv batch).2.components =
      R.components.map (List.map (fun c =>
        { c with
          available :=
            if c.has g crafting_inv batch = true then
              (if (check_enough_materials_comp (resolved R g crafting_inv batch) g
                  (mark g crafting_inv batch c) crafting_inv batch).1 = true then a_true
               else a_insufficent)
            else a_false })) := by
    rw [final_components]
    congr 1
    funext l
    congr 1
    funext c
    exact reconciled_mark_eq _ g crafting_inv batch c
  refine ⟨?_, ?_, ⟨_, hc⟩, ?_⟩
  · rw [final_tools]
    congr 1
    funext l
    congr 1
    funext t
    exact mark_item_eq g crafting_inv batch t
  · rw [final_qualities]
    congr 1
    funext l
    congr 1
    funext q
    exact mark_quality_eq g crafting_inv 1 q
  · rw [hc]
    intro s hs c hcs
    obtain ⟨s0, _, rfl⟩ := List.mem_map.mp hs
    obtain ⟨c0, _, rfl⟩ := List.mem_map.mp hcs
    have hhas : ∀ a : available_status,
        ({ c0 with available := a } : item_requirement).has g crafting_inv batch =
          c0.has g crafting_inv batch := fun _ => rfl
    by_cases h : c0.has g crafting_inv batch = true
    · cases hk : (check_enough_materials_comp (resolved R g crafting_inv batch) g
        (mark g crafting_inv batch c0) crafting_inv batch).1 <;> simp [h, hhas]
    · simp [h, hhas]

theorem has_comps_clear {T : Type} [requirement T] [lawful_requirement T] (g : game)
    (inv : inventory) (b : Int) (vec : List (List T)) :
    has_comps g inv (vec.map (List.map (fun t => requirement.set_available t a_false))) b =
      has_comps g inv vec b :=
  has_comps_map_congr g inv b _ vec (fun t => mark_set_available g inv b t a_false)
    (fun t => lawful_requirement.has_set t a_false g inv b)

/-- C23. Two requirement sets that differ only in their availability
annotations get the same verdict and are left with the same annotations by
`can_make_with_inventory`, for the same game state, inventory and batch; and
the reconciliation of a call runs on the tool and quality annotations that the
`has_comps` calls of the same call have just written. -/
theorem annotations_recomputed_per_call (R1 R2 : requirement_data) (g : game)
    (crafting_inv : inventory) (batch : Int)
    (h : clear_annotations R1 = clear_annotations R2) :
    can_make_with_inventory R1 g crafting_inv batch =
        can_make_with_inventory R2 g crafting_inv batch ∧
      (can_make_with_inventory R1 g crafting_inv batch).2 =
        (check_enough_materials (resolved R1 g crafting_inv batch) g crafting_inv batch).2 ∧
      (resolved R1 g crafting_inv batch).tools = (has_comps g crafting_inv R1.tools batch).2 ∧
      (resolved R1 g crafting_inv batch).qualities =
        (has_comps g crafting_inv R1.qualities 1).2 := by
  refine ⟨?_, rfl, rfl, rfl⟩
  have ht : R1.tools.map (List.map (fun t => requirement.set_available t a_false)) =
      R2.tools.map (List.map (fun t => requirement.set_available t a_false)) :=
    congrArg requirement_data.tools h
  have hq : R1.qualities.map (List.map (fun t => requirement.set_available t a_false)) =
      R2.qualities.map (List.map (fun t => requirement.set_available t a_false)) :=
    congrArg requirement_data.qualities h
  have hc : R1.components.map (List.map (fun t => requirement.set_available t a_false)) =
      R2.components.map (List.map (fun t => requirement.set_available t a_false)) :=
    congrArg requirement_data.components h
  have hs : (clear_annotations R1).skills = (clear_annotations R2).skills :=
    congrArg requirement_data.skills h
  apply can_make_with_inventory_congr
  · rw [← has_comps_clear g crafting_inv 1 R1.qualities, hq, has_comps_clear]
  · rw [← has_comps_clear g crafting_inv batch R1.tools, ht, has_comps_clear]
  · rw [← has_comps_clear g crafting_inv batch R1.components, hc, has_comps_clear]
  · exact hs

/-- Witness for C23: the same requirement set with fresh annotations and with
every annotation stale at `a_insufficent`. -/
theorem annotations_recomputed_per_call_witness :
    clear_annotations (tool_and_component "welder" a_false) =
        clear_annotations (tool_and_component "welder" a_insufficent) ∧
      (can_make_with_inventory (tool_and_component "welder" a_false) (plain_game plain_player)
          (one_unit_inventory "welder") 1 =
        can_make_with_inventory (tool_and_component "welder" a_insufficent)
          (plain_game plain_player) (one_unit_inventory "welder") 1 ∧
      (can_make_with_inventory (tool_and_component "welder" a_false) (plain_game plain_player)
          (one_unit_inventory "welder") 1).2 =
        (check_enough_materials
          (resolved (tool_and_component "welder" a_false) (plain_game plain_player)
            (one_unit_inventory "welder") 1)
          (plain_game plain_player) (one_unit_inventory "welder") 1).2 ∧
      (resolved (tool_and_component "welder" a_false) (plain_game plain_player)
          (one_unit_inventory "welder") 1).tools =
        (has_comps (plain_game plain_player) (one_unit_inventory "welder")
          (tool_and_component "welder" a_false).tools 1).2 ∧
      (resolved (tool_and_component "welder" a_false) (plain_game plain_player)
          (one_unit_inventory "welder") 1).qualities =
        (has_comps (plain_game plain_player) (one_unit_inventory "welder")
          (tool_and_component "welder" a_false).qualities 1).2) :=
  ⟨rfl, annotations_recomputed_per_call (tool_and_component "welder" a_false)
    (tool_and_component "welder" a_insufficent) (plain_game plain_player)
    (one_unit_inventory "welder") 1 rfl⟩

/-! ## Single queries -/

/-- C25. When neither the welding-goggles nor the rope override of the player
applies to the type, `item_requirement::has` is the inventory query
`has_tools( type, 1 )` for count 0 whatever the batch, `has_charges( type,
count * batch )` for a requirement by charges, and `has_components( type,
count * batch )` otherwise; `quality_requirement::has` is
`has_items_with_quality( type, level, 1 )` whatever the batch. -/
theorem has_is_the_batch_scaled_query (r : item_requirement) (q : quality_requirement)
    (g : game) (crafting_inv : inventory) (batch : Int)
    (hgoggles : ¬ goggles_override g r.type) (hrope : ¬ web_rope_override g r.type) :
    r.has g crafting_inv batch =
        (if r.count = 0 then crafting_inv.has_tools r.type 1
         else if r.by_charges = true then crafting_inv.has_charges r.type (r.count * batch)
         else crafting_inv.has_components r.type (r.count * batch)) ∧
      q.has crafting_inv batch = crafting_inv.has_items_with_quality q.type q.level 1 := by
  unfold goggles_override at hgoggles
  unfold web_rope_override at hrope
  refine ⟨?_, rfl⟩
  unfold item_requirement.has
  rw [if_neg hgoggles, if_neg hrope]

/-- Witness for C25: one welder by count at batch 3, for a player without
bionics or traits. -/
theorem has_is_the_batch_scaled_query_witness :
    ¬ goggles_override (plain_game plain_player) (one_of "welder" a_false).type ∧
      ¬ web_rope_override (plain_game plain_player) (one_of "welder" a_false).type ∧
      ((one_of "welder" a_false).has (plain_game plain_player) (units_inventory "welder" 3) 3 =
          (if (one_of "welder" a_false).count = 0 then
            (units_inventory "welder" 3).has_tools (one_of "welder" a_false).type 1
           else if (one_of "welder" a_false).by_charges = true then
            (units_inventory "welder" 3).has_charges (one_of "welder" a_false).type
              ((one_of "welder" a_false).count * 3)
           else
            (units_inventory "welder" 3).has_components (one_of "welder" a_false).type
              ((one_of "welder" a_false).count * 3)) ∧
        ({ type := "HAMMER", level := 2, available := a_false } : quality_requirement).has
            (units_inventory "welder" 3) 3 =
          (units_inventory "welder" 3).has_items_with_quality "HAMMER" 2 1) :=
  ⟨by decide, by decide,
    has_is_the_batch_scaled_query (one_of "welder" a_false)
      { type := "HAMMER", level := 2, available := a_false } (plain_game plain_player)
      (units_inventory "welder" 3) 3 (by decide) (by decide)⟩

/-! ## Display tier -/

/-- Counterexample to C26 as stated. For a requirement with minimum 5 and
difficulty 3 and a player of level 4, the level is at least the difficulty,
yet `get_color` returns `"red"`, not `"green"`. -/
theorem get_color_red_above_difficulty :
    level_4_player.get_skill_level strict_requirement.skill ≥ strict_requirement.difficulty ∧
      strict_requirement.get_color level_4_player = "red" ∧
      strict_requirement.get_color level_4_player ≠ "green" := by
  decide

/-- C26, as the code has it. `get_color` returns `"red"` exactly when the
current level is below the minimum, `"yellow"` exactly when the level is at
least the minimum and below the difficulty, and `"green"` exactly when the
level is at least the minimum and at least the difficulty; `"red"` is returned
exactly when `meets_minimum` is `false`. -/
theorem get_color_tiers (r : skill_requirement) (_player : player) :
    (r.get_color _player = "red" ↔ _player.get_skill_level r.skill < r.minimum) ∧
      (r.get_color _player = "yellow" ↔
        r.minimum ≤ _player.get_skill_level r.skill ∧
          _player.get_skill_level r.skill < r.difficulty) ∧
      (r.get_color _player = "green" ↔
        r.minimum ≤ _player.get_skill_level r.skill ∧
          r.difficulty ≤ _player.get_skill_level r.skill) ∧
      (r.get_color _player = "red" ↔ r.meets_minimum _player = false) := by
  unfold skill_requirement.get_color skill_requirement.meets_minimum
  by_cases h1 : _player.get_skill_level r.skill < r.minimum
  · have h1n : ¬ r.minimum ≤ _player.get_skill_level r.skill := not_le.mpr h1
    simp [h1, h1n]
  · have h1n : r.minimum ≤ _player.get_skill_level r.skill := not_lt.mp h1
    by_cases h2 : _player.get_skill_level r.skill < r.difficulty
    · have h2n : ¬ r.difficulty ≤ _player.get_skill_level r.skill := not_le.mpr h2
      simp [h1, h1n, h2, h2n]
    · have h2n : r.difficulty ≤ _player.get_skill_level r.skill := not_lt.mp h2
      simp [h1, h1n, h2, h2n]

/-! ## Demand across component groups -/

theorem has_of_inventory_query (r : item_requirement) (g : game) (inv : inventory) (b : Int)
    (h : inventory_query inv r b = true) : r.has g inv b = true := by
  unfold inventory_query at h
  unfold item_requirement.has
  by_cases hc : r.count = 0
  · rw [if_pos hc] at h ⊢
    split_ifs
    · rfl
    · exact h
  · rw [if_neg hc] at h ⊢
    by_cases hb : r.by_charges = true
    · rw [if_pos hb] at h ⊢
      exact h
    · rw [if_neg hb] at h ⊢
      split_ifs
      · rfl
      · exact h

theorem check_quality_overlap_no_qualities (inv : inventory) (qls : List (String × Int))
    (comp : item_requirement) : check_quality_overlap [] inv qls comp = comp := by
  induction qls with
  | nil => rfl
  | cons ql rest ih =>
    unfold check_quality_overlap
    simp only [find_by_type]
    exact ih

theorem check_enough_materials_comp_alone (R1 : requirement_data) (g : game) (inv : inventory)
    (b : Int) (c : item_requirement) (ht : R1.tools = []) (hq : R1.qualities = [])
    (h : c.has g inv b = true) :
    (check_enough_materials_comp R1 g (mark g inv b c) inv b).1 = true := by
  have hav : (mark g inv b c).available = a_true := (available_mark g inv b c).mpr h
  unfold check_enough_materials_comp
  simp only [hav, ne_eq, not_true_eq_false, if_false, ht, hq,
    check_quality_overlap_no_qualities, decide_eq_true_eq]
  unfold check_tool_overlap
  simp only [find_by_type]
  exact hav

/-- C28. A requirement set that consists only of two component groups with
one alternative each is craftable at every batch as soon as the inventory query
of each alternative alone succeeds: the demands of the two groups are not
added up. This holds in particular when both alternatives ask for `c` units of
the same type, whether or not the type has intrinsic qualities. -/
theorem demand_not_pooled_across_groups (R : requirement_data) (g : game)
    (crafting_inv : inventory) (batch : Int) (a1 a2 : item_requirement)
    (htools : R.tools = []) (hquals : R.qualities = [])
    (hcomps : R.components = [[a1], [a2]])
    (h1 : inventory_query crafting_inv a1 batch = true)
    (h2 : inventory_query crafting_inv a2 batch = true) :
    (can_make_with_inventory R g crafting_inv batch).1 = true := by
  have hr : (resolved R g crafting_inv batch).components =
      [[mark g crafting_inv batch a1], [mark g crafting_inv batch a2]] := by
    show (has_comps g crafting_inv R.components batch).2 = _
    rw [has_comps_snd, hcomps]
    rfl
  have hrt : (resolved R g crafting_inv batch).tools = [] := by
    show (has_comps g crafting_inv R.tools batch).2 = _
    rw [has_comps_snd, htools]
    rfl
  have hrq : (resolved R g crafting_inv batch).qualities = [] := by
    show (has_comps g crafting_inv R.qualities 1).2 = _
    rw [has_comps_snd, hquals]
    rfl
  have e1 := has_of_inventory_query a1 g crafting_inv batch h1
  have e2 := has_of_inventory_query a2 g crafting_inv batch h2
  have k1 := check_enough_materials_comp_alone (resolved R g crafting_inv batch) g crafting_inv
    batch a1 hrt hrq e1
  have k2 := check_enough_materials_comp_alone (resolved R g crafting_inv batch) g crafting_inv
    batch a2 hrt hrq e2
  have e1r : requirement.has a1 g crafting_inv batch = true := e1
  have e2r : requirement.has a2 g crafting_inv batch = true := e2
  rw [can_make_with_inventory_fst, has_comps_fst, has_comps_fst, has_comps_fst,
    check_enough_materials_fst, hr, htools, hquals, hcomps]
  simp [k1, k2, e1r, e2r]

/-- Witness for C28: two groups of 2 nails each at batch 3 and an inventory of
exactly 6 nails, which cannot supply the 12 nails of both groups together. -/
theorem demand_not_pooled_across_groups_witness :
    (two_component_groups "nail" 2).tools = [] ∧
      (two_component_groups "nail" 2).qualities = [] ∧
      (two_component_groups "nail" 2).components =
        [[{ type := "nail", count := 2, by_charges := false, recoverable := true,
            available := a_false }],
         [{ type := "nail", count := 2, by_charges := false, recoverable := true,
            available := a_false }]] ∧
      inventory_query (units_inventory "nail" 6)
        { type := "nail", count := 2, by_charges := false, recoverable := true,
          available := a_false } 3 = true ∧
      (units_inventory "nail" 6).has_components "nail" (2 * 2 * 3) = false ∧
      (units_inventory "nail" 6).has_charges "nail" (2 * 2 * 3) = false ∧
      (can_make_with_inventory (two_component_groups "nail" 2) (plain_game plain_player)
        (units_inventory "nail" 6) 3).1 = true :=
  ⟨rfl, rfl, rfl, by decide, by decide, by decide,
    demand_not_pooled_across_groups (two_component_groups "nail" 2) (plain_game plain_player)
      (units_inventory "nail" 6) 3
      { type := "nail", count := 2, by_charges := false, recoverable := true,
        available := a_false }
      { type := "nail", count := 2, by_charges := false, recoverable := true,
        available := a_false }
      rfl rfl rfl (by decide) (by decide)⟩

/-! ## First-match reconciliation -/

theorem find_by_type_eq_find_flatten {T : Type} [requirement T] (vec : List (List T))
    (type : String) :
    find_by_type vec type =
      vec.flatten.find? (fun comp => decide (requirement.type comp = type)) := by
  induction vec with
  | nil => rfl
  | cons l rest ih =>
    rw [List.flatten_cons, List.find?_append]
    unfold find_by_type
    cases l.find? (fun comp => decide (requirement.type comp = type)) with
    | none => simpa using ih
    | some c => rfl

/-- C24. The entry that the tool-overlap step consults is the first tool
alternative, in group order and then alternative order, whose type is the
component's type; when there is no such entry or that entry is not annotated
`a_true`, the step returns the component unchanged, whatever the later tool
alternatives of the same type and the inventory are. -/
theorem first_match_reconciliation (tools : List (List item_requirement)) (g : game)
    (comp : item_requirement) (crafting_inv : inventory) (batch : Int)
    (h : find_by_type tools comp.type = none ∨
      ∃ tq, find_by_type tools comp.type = some tq ∧ tq.available ≠ a_true) :
    find_by_type tools comp.type =
        tools.flatten.find? (fun tool => decide (tool.type = comp.type)) ∧
      check_tool_overlap tools g comp crafting_inv batch = comp := by
  refine ⟨find_by_type_eq_find_flatten tools comp.type, ?_⟩
  unfold check_tool_overlap
  rcases h with h | ⟨tq, h, hav⟩
  · rw [h]
  · rw [h]
    simp only [hav, if_false]

/-- Witness for C24: the first welder entry (5 welders) is not available, the
later entry (1 welder) is, the inventory holds one welder and cannot supply the
pooled demand of 2; the component stays `a_true` and the set is reported
craftable. -/
theorem first_match_reconciliation_witness :
    (find_by_type first_match_example.tools (units_of "welder" 1 a_true).type = none ∨
        ∃ tq, find_by_type first_match_example.tools (units_of "welder" 1 a_true).type =
          some tq ∧ tq.available ≠ a_true) ∧
      (resolved first_match_example (plain_game plain_player)
        (pair_inventory "welder" "hammer") 1).tools = first_match_example.tools ∧
      alternative_at first_match_example.tools 1 0 = some (units_of "welder" 1 a_true) ∧
      pooled_has (plain_game plain_player) (pair_inventory "welder" "hammer") "welder"
        ((units_of "welder" 1 a_true).count * 1 + (units_of "welder" 1 a_true).count) = false ∧
      (can_make_with_inventory first_match_example (plain_game plain_player)
        (pair_inventory "welder" "hammer") 1).1 = true ∧
      (find_by_type first_match_example.tools (units_of "welder" 1 a_true).type =
          first_match_example.tools.flatten.find?
            (fun tool => decide (tool.type = (units_of "welder" 1 a_true).type)) ∧
        check_tool_overlap first_match_example.tools (plain_game plain_player)
          (units_of "welder" 1 a_true) (pair_inventory "welder" "hammer") 1 =
          units_of "welder" 1 a_true) :=
  have h : find_by_type first_match_example.tools (units_of "welder" 1 a_true).type = none ∨
      ∃ tq, find_by_type first_match_example.tools (units_of "welder" 1 a_true).type =
        some tq ∧ tq.available ≠ a_true :=
    Or.inr ⟨units_of "welder" 5 a_false, by decide, by decide⟩
  ⟨h, by decide, by decide, by decide, by decide,
    first_match_reconciliation first_match_example.tools (plain_game plain_player)
      (units_of "welder" 1 a_true) (pair_inventory "welder" "hammer") 1 h⟩

/-! ## Compounding against the plain product -/

theorem prod_map_le_prod_map {α : Type} (f h : α → ℝ) (l : List α)
    (hfh : ∀ e ∈ l, 0 ≤ f e ∧ f e ≤ h e) :
    0 ≤ (l.map f).prod ∧ (l.map f).prod ≤ (l.map h).prod := by
  induction l with
  | nil => simp
  | cons e rest ih =>
    have ih1 := ih (fun e1 he1 => hfh e1 (List.mem_cons_of_mem _ he1))
    have he := hfh e (List.mem_cons_self _ _)
    rw [List.map_cons, List.prod_cons, List.map_cons, List.prod_cons]
    exact ⟨mul_nonneg he.1 ih1.1,
      mul_le_mul he.2 ih1.2 ih1.1 (le_trans he.1 he.2)⟩

theorem exists_largest {α : Type} (f : α → ℝ) (l : List α) (hne : l ≠ []) :
    ∃ e ∈ l, ∀ e1 ∈ l, f e1 ≤ f e := by
  induction l with
  | nil => exact absurd rfl hne
  | cons a rest ih =>
    by_cases hr : rest = []
    · subst hr
      refine ⟨a, List.mem_cons_self _ _, ?_⟩
      intro e1 he1
      rw [List.mem_singleton.mp he1]
    · obtain ⟨m, hm, hmax⟩ := ih hr
      by_cases hle : f m ≤ f a
      · refine ⟨a, List.mem_cons_self _ _, ?_⟩
        intro e1 he1
        rcases List.mem_cons.mp he1 with h | h
        · rw [h]
        · exact le_trans (hmax e1 h) hle
      · refine ⟨m, List.mem_cons_of_mem _ hm, ?_⟩
        intro e1 he1
        rcases List.mem_cons.mp he1 with h | h
        · rw [h]
          exact le_of_lt (not_le.mp hle)
        · exact hmax e1 h

theorem le_rpow_inv_nat (r : ℝ) (n : Nat) (hn : n ≠ 0) (h0 : 0 ≤ r) (h1 : r ≤ 1) :
    r ≤ r ^ (1 / (n : ℝ)) := by
  rcases eq_or_lt_of_le h0 with hz | hz
  · rw [← hz]
    exact Real.rpow_nonneg (le_refl 0) _
  · have hn1 : (1 : ℝ) ≤ (n : ℝ) := by
      exact_mod_cast Nat.one_le_iff_ne_zero.mpr hn
    have hle : 1 / (n : ℝ) ≤ 1 := by
      rw [div_le_one (by linarith)]
      exact hn1
    have := Real.rpow_le_rpow_of_exponent_ge hz h1 hle
    rwa [Real.rpow_one] at this

/-- C27. With n >= 1 skill requirements whose individual success rates all lie
in [0,1], `success_rate` is at least the plain product of the individual rates
and at most the largest individual rate. -/
theorem success_rate_between_product_and_largest (R : requirement_data) (_player : player)
    (difficulty_modifier : ℝ) (hne : R.skills ≠ [])
    (hr : ∀ e ∈ R.skills, 0 ≤ e.2.success_rate _player difficulty_modifier ∧
      e.2.success_rate _player difficulty_modifier ≤ 1) :
    (R.skills.map (fun e => e.2.success_rate _player difficulty_modifier)).prod ≤
        success_rate R _player difficulty_modifier ∧
      ∃ e ∈ R.skills,
        (∀ e1 ∈ R.skills, e1.2.success_rate _player difficulty_modifier ≤
          e.2.success_rate _player difficulty_modifier) ∧
        success_rate R _player difficulty_modifier ≤
          e.2.success_rate _player difficulty_modifier := by
  have hlen : R.skills.length ≠ 0 := fun h => hne (List.eq_nil_of_length_eq_zero h)
  have hn : (R.skills.length : ℝ) ≠ 0 := by exact_mod_cast hlen
  have hexp : (0 : ℝ) ≤ 1 / (R.skills.length : ℝ) := by positivity
  unfold success_rate
  rw [success_rate_loop_eq, one_mul]
  constructor
  · apply (prod_map_le_prod_map _ _ R.skills _).2
    intro e he
    exact ⟨(hr e he).1, le_rpow_inv_nat _ _ hlen (hr e he).1 (hr e he).2⟩
  · obtain ⟨m, hm, hmax⟩ := exists_largest
      (fun e : String × skill_requirement => e.2.success_rate _player difficulty_modifier)
      R.skills hne
    refine ⟨m, hm, hmax, ?_⟩
    have hle := (prod_map_le_prod_map
      (fun e : String × skill_requirement =>
        (e.2.success_rate _player difficulty_modifier) ^ (1 / (R.skills.length : ℝ)))
      (fun _ => (m.2.success_rate _player difficulty_modifier) ^ (1 / (R.skills.length : ℝ)))
      R.skills
      (fun e he => ⟨Real.rpow_nonneg (hr e he).1 _,
        Real.rpow_le_rpow (hr e he).1 (hmax e he) hexp⟩)).2
    have hconst : (R.skills.map (fun _ : String × skill_requirement =>
        (m.2.success_rate _player difficulty_modifier) ^ (1 / (R.skills.length : ℝ)))).prod =
        m.2.success_rate _player difficulty_modifier := by
      rw [List.map_const', List.prod_replicate, ← Real.rpow_natCast,
        ← Real.rpow_mul (hr m hm).1, one_div, inv_mul_cancel₀ hn, Real.rpow_one]
    rw [hconst] at hle
    exact hle

/-- Witness for C27: two skill requirements of individual rate 1/2; the plain
product is 1/4 and the compound rate is 1/2. -/
theorem success_rate_between_product_and_largest_witness :
    (skills_only [("fabrication", fabrication_2_3), ("tailor", tailor_2_3)]).skills ≠ [] ∧
      (∀ e ∈ (skills_only [("fabrication", fabrication_2_3), ("tailor", tailor_2_3)]).skills,
        0 ≤ e.2.success_rate journeyman_player 0 ∧ e.2.success_rate journeyman_player 0 ≤ 1) ∧
      (((skills_only [("fabrication", fabrication_2_3), ("tailor", tailor_2_3)]).skills.map
            (fun e => e.2.success_rate journeyman_player 0)).prod ≤
          success_rate (skills_only [("fabrication", fabrication_2_3), ("tailor", tailor_2_3)])
            journeyman_player 0 ∧
        ∃ e ∈ (skills_only [("fabrication", fabrication_2_3), ("tailor", tailor_2_3)]).skills,
          (∀ e1 ∈ (skills_only [("fabrication", fabrication_2_3),
              ("tailor", tailor_2_3)]).skills,
            e1.2.success_rate journeyman_player 0 ≤ e.2.success_rate journeyman_player 0) ∧
          success_rate (skills_only [("fabrication", fabrication_2_3), ("tailor", tailor_2_3)])
            journeyman_player 0 ≤ e.2.success_rate journeyman_player 0) :=
  have hrates : ∀ e ∈ (skills_only [("fabrication", fabrication_2_3),
      ("tailor", tailor_2_3)]).skills,
      0 ≤ e.2.success_rate journeyman_player 0 ∧ e.2.success_rate journeyman_player 0 ≤ 1 := by
    intro e he
    simp only [skills_only, List.mem_cons, List.mem_singleton, List.not_mem_nil, or_false] at he
    rcases he with rfl | rfl
    · simp [skill_requirement.success_rate, fabrication_2_3, journeyman_player, plain_player]
      norm_num
    · simp [skill_requirement.success_rate, tailor_2_3, journeyman_player, plain_player]
      norm_num
  ⟨by simp [skills_only], hrates,
    success_rate_between_product_and_largest
      (skills_only [("fabrication", fabrication_2_3), ("tailor", tailor_2_3)])
      journeyman_player 0 (by simp [skills_only]) hrates⟩

/-! ## `remove_item` on the path that returns `true` -/

section removal_true
variable {T : Type} [requirement T]

theorem remove_item_elem_true (type : String) (rest : List T) (hne : rest ≠ [])
    (hall : ∀ a ∈ rest, requirement.type a = type) :
    remove_item_elem type [] rest = (true, [rest.getLast hne]) := by
  induction rest with
  | nil => exact absurd rfl hne
  | cons c rest ih =>
    have hc : requirement.type c = type := hall c (List.mem_cons_self _ _)
    unfold remove_item_elem
    rw [if_pos hc]
    by_cases hr : rest = []
    · subst hr
      simp
    · have hsize : ¬ ([] : List T).length + (c :: rest).length = 1 := by
        have : rest.length ≠ 0 := fun h => hr (List.eq_nil_of_length_eq_zero h)
        simp only [List.length_nil, List.length_cons]
        omega
      rw [if_neg hsize, ih hr (fun a ha => hall a (List.mem_cons_of_mem _ ha)),
        List.getLast_cons hr]

theorem remove_item_vec_true (type : String) (vec : List (List T))
    (h : (remove_item_vec type vec).1 = true) :
    ∃ pre s post, ∃ hs : solely_of type s,
      vec = pre ++ s :: post ∧ (∀ s1 ∈ pre, ¬ solely_of type s1) ∧
      (remove_item_vec type vec).2 =
        pre.map (List.filter (fun a => !decide (requirement.type a = type))) ++
          [s.getLast hs.1] :: post := by
  induction vec with
  | nil => simp [remove_item_vec] at h
  | cons elem rest ih =>
    have he := remove_item_elem_fst type elem ([] : List T)
    by_cases htrue : (remove_item_elem type [] elem).1 = true
    · have hsole : solely_of type elem := (he.mp htrue).2
      refine ⟨[], elem, rest, hsole, rfl, ?_, ?_⟩
      · intro s1 hs1
        cases hs1
      · unfold remove_item_vec
        rw [remove_item_elem_true type elem hsole.1 hsole.2]
        rfl
    · have hfalse : (remove_item_elem type [] elem).1 = false := by simpa using htrue
      have hnot : ¬ solely_of type elem := fun hs => htrue (he.mpr ⟨rfl, hs.1, hs.2⟩)
      have hrest : (remove_item_vec type rest).1 = true := by
        unfold remove_item_vec at h
        simpa [hfalse] using h
      obtain ⟨pre, s, post, hs, hvec, hpre, hres⟩ := ih hrest
      refine ⟨elem :: pre, s, post, hs, by rw [hvec]; rfl, ?_, ?_⟩
      · intro s1 hs1
        rcases List.mem_cons.mp hs1 with h1 | h1
        · rw [h1]; exact hnot
        · exact hpre s1 h1
      · unfold remove_item_vec
        simp only [hfalse, Bool.false_eq_true, if_false]
        rw [hres, remove_item_elem_snd type elem [] hfalse]
        simp

end removal_true

/-- C29. When `remove_item( type )` returns `true`, either a tool group
triggered it or, with no tool group made of the type alone, a component group
did. In the triggering list the groups before the first group that is made of
the type alone have lost their alternatives of the type, that group holds
exactly its last alternative, and the groups after it are unchanged. When a
tool group triggers, the component list is unchanged; when a component group
triggers, every tool group has lost its alternatives of the type. -/
theorem remove_item_true_is_partial (R : requirement_data) (type : String)
    (h : (remove_item R type).1 = true) :
    (∃ pre s post, ∃ hs : solely_of type s,
        R.tools = pre ++ s :: post ∧ (∀ s1 ∈ pre, ¬ solely_of type s1) ∧
        (remove_item R type).2.tools =
          pre.map (List.filter (fun a => !decide (a.type = type))) ++
            [s.getLast hs.1] :: post ∧
        (remove_item R type).2.components = R.components) ∨
      ((∀ s1 ∈ R.tools, ¬ solely_of type s1) ∧
        (remove_item R type).2.tools =
          R.tools.map (List.filter (fun a => !decide (a.type = type))) ∧
        ∃ pre s post, ∃ hs : solely_of type s,
          R.components = pre ++ s :: post ∧ (∀ s1 ∈ pre, ¬ solely_of type s1) ∧
          (remove_item R type).2.components =
            pre.map (List.filter (fun a => !decide (a.type = type))) ++
              [s.getLast hs.1] :: post) := by
  by_cases ht : (remove_item_vec type R.tools).1 = true
  · left
    obtain ⟨pre, s, post, hs, hvec, hpre, hres⟩ := remove_item_vec_true type R.tools ht
    refine ⟨pre, s, post, hs, hvec, hpre, ?_, ?_⟩
    · unfold remove_item
      simp only [ht, if_true]
      exact hres
    · unfold remove_item
      simp only [ht, if_true]
  · right
    have htf : (remove_item_vec type R.tools).1 = false := by simpa using ht
    have hc : (remove_item_vec type R.components).1 = true := by
      rw [remove_item_fst, htf, Bool.false_or] at h
      exact h
    obtain ⟨pre, s, post, hs, hvec, hpre, hres⟩ := remove_item_vec_true type R.components hc
    refine ⟨?_, ?_, pre, s, post, hs, hvec, hpre, ?_⟩
    · intro s1 hs1 hsole
      exact ht ((remove_item_vec_fst type R.tools).mpr ⟨s1, hs1, hsole.1, hsole.2⟩)
    · unfold remove_item
      simp only [htf, Bool.false_eq_true, if_false]
      exact remove_item_vec_snd type R.tools htf
    · unfold remove_item
      simp only [htf, Bool.false_eq_true, if_false]
      exact hres

/-- Witness for C29: removing the welder from `removal_true_example`. The
first tool group loses its welder, the second is left with its last welder,
the third tool group and the component group still offer a welder. -/
theorem remove_item_true_is_partial_witness :
    (remove_item removal_true_example "welder").1 = true ∧
      (remove_item removal_true_example "welder").2.tools =
        [[units_of "hammer" 1 a_false], [units_of "welder" 2 a_false],
         [units_of "welder" 1 a_false, units_of "nail" 1 a_false]] ∧
      (remove_item removal_true_example "welder").2.components =
        [[units_of "welder" 1 a_false, units_of "nail" 1 a_false]] ∧
      ((∃ pre s post, ∃ hs : solely_of "welder" s,
          removal_true_example.tools = pre ++ s :: post ∧
          (∀ s1 ∈ pre, ¬ solely_of "welder" s1) ∧
          (remove_item removal_true_example "welder").2.tools =
            pre.map (List.filter (fun a => !decide (a.type = "welder"))) ++
              [s.getLast hs.1] :: post ∧
          (remove_item removal_true_example "welder").2.components =
            removal_true_example.components) ∨
        ((∀ s1 ∈ removal_true_example.tools, ¬ solely_of "welder" s1) ∧
          (remove_item removal_true_example "welder").2.tools =
            removal_true_example.tools.map
              (List.filter (fun a => !decide (a.type = "welder"))) ∧
          ∃ pre s post, ∃ hs : solely_of "welder" s,
            removal_true_example.components = pre ++ s :: post ∧
            (∀ s1 ∈ pre, ¬ solely_of "welder" s1) ∧
            (remove_item removal_true_example "welder").2.components =
              pre.map (List.filter (fun a => !decide (a.type = "welder"))) ++
                [s.getLast hs.1] :: post)) :=
  ⟨by decide, by decide, by decide,
    remove_item_true_is_partial removal_true_example "welder" (by decide)⟩

end Requirements
